import Mathlib

/-!
# Verification of the Autoheal alert-processing core

Shallow embedding of the parser engine (`src/parser/parserEngine.js`, the
current revision), the decision engine (`src/decision/decide.js`), the
report formatter (`src/report/formatReport.js`), the parsed-alert schema
(`src/parser/schema.js`) and the transport-side action validity check
(`server.js`), together with proofs settling the frozen claims about them.

JavaScript runtime data is modelled by the inductive type `Value`
(null, undefined, NaN, booleans, numbers as rationals, strings, arrays,
objects as ordered association lists).  Behaviour supplied by the
JavaScript standard library or by external services (the regex engine,
`JSON.parse`, `Number`, `String()` coercion, the Ollama backend, the
filesystem, the MCP tools) is abstracted into explicit environment
structures (`JsLib`, `LlmEnv`, `FsEnv`, `McpEnv`); theorems quantify over
these environments and witnesses instantiate them concretely.
Code that can throw is embedded in `Except String`.
-/

namespace Autoheal

/-- Model of a JavaScript runtime value.  Numbers are rationals with NaN
split off as its own constructor (no arithmetic beyond parsing and
truthiness occurs in the embedded code). -/
inductive Value where
  | vNull
  | vUndef
  | vNaN
  | vBool (b : Bool)
  | vNum (q : ℚ)
  | vStr (s : String)
  | vArr (elems : List Value)
  | vObj (fields : List (String × Value))

/-- A JavaScript object: an ordered association list of fields. -/
abbrev Obj := List (String × Value)

/-- Property read `o[k]` on an object: `undefined` when the key is absent. -/

def getField (o : Obj) (k : String) : Value :=
  match o.find? (fun p => p.1 == k) with
  | some p => p.2
  | none => Value.vUndef

/-- Property read `v.k` via optional chaining / on a known object.
Non-objects yield `undefined` (primitive property access; the embedded
code only reads data properties). -/
def getF (v : Value) (k : String) : Value :=
  match v with
  | .vObj fs => getField fs k
  | _ => Value.vUndef

/-- Property read `v.k` without optional chaining: throws a TypeError on
`null`/`undefined`, as JavaScript does. -/
def getFEx (v : Value) (k : String) : Except String Value :=
  match v with
  | .vNull => .error ("TypeError: cannot read properties of null (reading " ++ k ++ ")")
  | .vUndef => .error ("TypeError: cannot read properties of undefined (reading " ++ k ++ ")")
  | _ => .ok (getF v k)

/-- JavaScript truthiness. -/
def jsTruthy : Value → Bool
  | .vNull => false
  | .vUndef => false
  | .vNaN => false
  | .vBool b => b
  | .vNum q => q != 0
  | .vStr s => s != ""
  | .vArr _ => true
  | .vObj _ => true

/-- `v === null || v === undefined` (the nullish test used by `??`). -/
def jsNullish : Value → Bool
  | .vNull => true
  | .vUndef => true
  | _ => false

/-- JavaScript strict equality `===`.  Arrays and objects compare by
reference; every comparison in the embedded code is between values of
distinct provenance (configuration vs. freshly built records), so the
reference comparison is modelled as `false`. -/
def jsStrictEq : Value → Value → Bool
  | .vNull, .vNull => true
  | .vUndef, .vUndef => true
  | .vBool a, .vBool b => a == b
  | .vNum a, .vNum b => a == b
  | .vStr a, .vStr b => a == b
  | _, _ => false

/-- `v === "s"` for a string literal. -/
def eqStr (v : Value) (s : String) : Bool :=
  jsStrictEq v (.vStr s)

/-- Assignment `o[k] = v`: overwrite in place when the key exists,
append otherwise (JavaScript key-insertion order). -/
def setKey (o : Obj) (k : String) (v : Value) : Obj :=
  if o.any (fun p => p.1 == k) then
    o.map (fun p => if p.1 == k then (p.1, v) else p)
  else
    o ++ [(k, v)]

/-- The entries contributed by an object-literal spread `{...v}`:
nothing for nullish values and primitives, indexed entries for strings
and arrays, the fields for objects. -/
def spreadEntries : Value → Obj
  | .vObj fs => fs
  | .vStr s => (s.toList.enum.map (fun p => (toString p.1, Value.vStr (String.singleton p.2))))
  | .vArr xs => (xs.enum.map (fun p => (toString p.1, p.2)))
  | _ => []

/-- Merge the spread entries of `src` into `base` (sequence of `setKey`). -/
def mergeObj (base : Obj) (src : Value) : Obj :=
  (spreadEntries src).foldl (fun acc kv => setKey acc kv.1 kv.2) base

/-- Merge a plain list of entries (an already-built object) into `base`. -/
def mergeEntries (base : Obj) (src : Obj) : Obj :=
  src.foldl (fun acc kv => setKey acc kv.1 kv.2) base

/-- `Object.entries(v)` for the guarded uses in the embedded code
(the argument is known to be truthy there). -/
def entriesOf : Value → List (String × Value)
  | .vObj fs => fs
  | .vArr xs => xs.enum.map (fun p => (toString p.1, p.2))
  | .vStr s => s.toList.enum.map (fun p => (toString p.1, Value.vStr (String.singleton p.2)))
  | _ => []

/-- `Array.isArray`. -/
def isArrayV : Value → Bool
  | .vArr _ => true
  | _ => false

/-- `v.length` as a value: a number for arrays and strings, `undefined`
otherwise. -/
def lengthOf : Value → Value
  | .vArr xs => .vNum xs.length
  | .vStr s => .vNum s.length
  | _ => Value.vUndef

/-- Substring test (`String.prototype.includes`). -/
def strContains (s sub : String) : Bool :=
  s.toList.tails.any (fun t => sub.toList.isPrefixOf t)

/-- `String.prototype.startsWith` (list-based, so that closed instances
compute). -/
def jsStartsWith (s p : String) : Bool :=
  p.toList.isPrefixOf s.toList

/-- `String.prototype.endsWith`. -/
def jsEndsWith (s p : String) : Bool :=
  p.toList.isSuffixOf s.toList

/-- `String.prototype.toLowerCase` (ASCII fragment). -/
def jsToLowerStr (s : String) : String :=
  ⟨s.toList.map Char.toLower⟩

/-- `String.prototype.trim`. -/
def jsTrim (s : String) : String :=
  ⟨((s.toList.dropWhile (fun c => c.isWhitespace)).reverse.dropWhile
    (fun c => c.isWhitespace)).reverse⟩

/-- `String.prototype.split` with a literal separator (fuelled worker). -/
def jsSplitGo (sep : List Char) : Nat → List Char → List Char → List String
  | 0, acc, s => [⟨acc.reverse ++ s⟩]
  | Nat.succ fuel, acc, s =>
    if sep.isPrefixOf s then
      (⟨acc.reverse⟩ : String) :: jsSplitGo sep fuel [] (s.drop sep.length)
    else
      match s with
      | [] => [⟨acc.reverse⟩]
      | c :: t => jsSplitGo sep fuel (c :: acc) t

/-- `s.split(sep)` for a nonempty literal separator. -/
def jsSplitOn (s sep : String) : List String :=
  if sep.isEmpty then [s]
  else jsSplitGo sep.toList (s.toList.length + 1) [] s.toList

/-- Case-insensitive substring test, used for the fixed regexes
`/(disk|storage)/i` and `/(memory|ram)/i` in the parser engine. -/
def strContainsCI (s sub : String) : Bool :=
  strContains (jsToLowerStr s) (jsToLowerStr sub)

/-- External JavaScript/runtime behaviour the embedded code calls into:
the regex engine, `JSON.parse`, `Number`, and string coercion
(`String(v)` / `JSON.stringify`).  Theorems quantify over this structure;
witnesses instantiate it concretely. -/
structure JsLib where
  /-- does `new RegExp(p, "i")` succeed -/
  regexCompileI : String → Bool
  /-- `text.match(re)` for `re = new RegExp(p, "i")`: `none` is no match,
  otherwise the match array (entry 0 the full match, then the groups,
  `none` entries for unmatched optional groups) -/
  regexMatchI : String → String → Option (List (Option String))
  /-- does `new RegExp(p)` succeed -/
  regexCompile : String → Bool
  /-- `re.test(s)` for `re = new RegExp(p)` -/
  regexTest : String → String → Bool
  /-- global regex replace for the dynamically built placeholder patterns
  whose key is not regex-literal; `none` models the SyntaxError throw -/
  regexReplaceAllG : String → String → String → Option String
  /-- `JSON.parse`: the parsed value, or the SyntaxError message -/
  jsonParse : String → Except String Value
  /-- `Number(s)`: a number or NaN -/
  numOfStr : String → Value
  /-- `String(v)` coercion -/
  toStr : Value → String
  /-- `JSON.stringify(v)` -/
  stringify : Value → String

/-- `parseInt(String(v))` restricted to the base-10 fragment the
configuration uses (optional sign after whitespace, leading digits). -/
def parseIntJs (lib : JsLib) (v : Value) : Option Int :=
  let s := (lib.toStr v).toList.dropWhile (fun c => c.isWhitespace)
  let core : List Char → Option Nat := fun l =>
    let digits := l.takeWhile (fun c => c.isDigit)
    if digits.isEmpty then none
    else some (digits.foldl (fun n c => 10 * n + (c.toNat - '0'.toNat)) 0)
  match s with
  | '-' :: t => (core t).map (fun n => -(n : Int))
  | '+' :: t => (core t).map (fun n => (n : Int))
  | t => (core t).map (fun n => (n : Int))

/-- Index into a match array: `match[i]`, `undefined` out of range
(including negative indices). -/
def matchIndex (arr : List (Option String)) (i : Option Int) : Option String :=
  match i with
  | none => none
  | some j =>
    if h : 0 ≤ j ∧ j.toNat < arr.length then arr.get ⟨j.toNat, h.2⟩ else none

/-! ## String replacement

`String.prototype.replace` with a `g`-flagged regex whose pattern is a
literal (the dynamically built `\{key\}` patterns for regex-literal keys,
and the fixed literal patterns in the formatter).  JavaScript processes
replacement patterns (`$$`, `$&`, the backquote and quote forms) in the
replacement string; with no capture groups in the pattern, `$<digit>` is
left untouched. -/

/-- Expand JavaScript replacement patterns in `repl` for a match of text
`matched`, with `bef`/`aft` the portions of the subject before and after
the match. -/
def replExpand (matched bef aft : List Char) : List Char → List Char
  | [] => []
  | c :: rest =>
    if c = '$' then
      match rest with
      | '$' :: t => '$' :: replExpand matched bef aft t
      | '&' :: t => matched ++ replExpand matched bef aft t
      | '\x60' :: t => bef ++ replExpand matched bef aft t
      | '\'' :: t => aft ++ replExpand matched bef aft t
      | t => '$' :: replExpand matched bef aft t
    else
      c :: replExpand matched bef aft rest

/-- Fuelled worker for global literal replacement.  `pre` is the already
consumed part of the original subject (needed for the backquote
replacement pattern); matches are leftmost, non-overlapping, found on the
original subject. -/
def replaceAllGo (pat repl : List Char) : Nat → List Char → List Char → List Char
  | 0, _, s => s
  | Nat.succ fuel, pre, s =>
    if pat.isPrefixOf s then
      replExpand pat pre (s.drop pat.length) repl ++
        replaceAllGo pat repl fuel (pre ++ pat) (s.drop pat.length)
    else
      match s with
      | [] => []
      | c :: t => c :: replaceAllGo pat repl fuel (pre ++ [c]) t

/-- `subject.replace(new RegExp(escape(pat), "g"), repl)` for a nonempty
literal pattern `pat` (an empty pattern never arises in the embedded
code: the built patterns are brace-delimited or fixed nonempty words). -/
def jsReplaceAll (subject pat repl : String) : String :=
  if pat.isEmpty then subject
  else ⟨replaceAllGo pat.toList repl.toList (subject.toList.length + 1) [] subject.toList⟩

/-- Fuelled worker for first-occurrence literal replacement
(`String.prototype.replace` with a string pattern). -/
def replaceFirstGo (pat repl : List Char) : Nat → List Char → List Char → List Char
  | 0, _, s => s
  | Nat.succ fuel, pre, s =>
    if pat.isPrefixOf s then
      replExpand pat pre (s.drop pat.length) repl ++ s.drop pat.length
    else
      match s with
      | [] => []
      | c :: t => c :: replaceFirstGo pat repl fuel (pre ++ [c]) t

/-- `subject.replace(pat, repl)` with a string pattern: replaces the first
occurrence only, still processing replacement patterns. -/
def jsReplaceFirst (subject pat repl : String) : String :=
  if pat.isEmpty then ⟨replExpand [] [] subject.toList repl.toList ++ subject.toList⟩
  else ⟨replaceFirstGo pat.toList repl.toList (subject.toList.length + 1) [] subject.toList⟩

/-! ## Parsed-alert schema (`src/parser/schema.js`)

zod schema `ParsedAlertSchema` with `.passthrough()`: required string
`alert_type`/`parse_method`, required nullable strings, a string record
`metric_labels`, a number `confidence` (zod rejects NaN), a string array
`missing_fields`, optional nullable numbers `threshold_percent` and
`value_percent`, optional nullable strings for the scaling/VM fields, and
arbitrary additional fields.  `parse` returns the validated object. -/

/-- Is the value a (non-NaN) number? -/
def isNumV : Value → Bool
  | .vNum _ => true
  | _ => false

/-- Is the value a string? -/
def isStrV : Value → Bool
  | .vStr _ => true
  | _ => false

/-- `z.string().nullable()`: string or null (undefined rejected). -/
def isStrOrNull (v : Value) : Bool :=
  isStrV v || jsStrictEq v .vNull

/-- `z.string().nullable().optional()`: string, null, or absent. -/
def isStrOrNullOpt (v : Value) : Bool :=
  isStrV v || jsStrictEq v .vNull || jsStrictEq v Value.vUndef

/-- `z.number().nullable().optional()`: number, null, or absent. -/
def isNumOrNullOpt (v : Value) : Bool :=
  isNumV v || jsStrictEq v .vNull || jsStrictEq v Value.vUndef

/-- `z.record(z.string())`: an object all of whose values are strings. -/
def isStrRecord : Value → Bool
  | .vObj fs => fs.all (fun p => isStrV p.2)
  | _ => false

/-- `z.array(z.string())`. -/
def isStrArray : Value → Bool
  | .vArr xs => xs.all isStrV
  | _ => false

/-- The field checks of `ParsedAlertSchema`. -/
def parsedAlertChecks (o : Obj) : Bool :=
  isStrV (getField o "alert_type") &&
  isStrOrNull (getField o "project_id") &&
  isStrOrNull (getField o "instance_name") &&
  isStrRecord (getField o "metric_labels") &&
  isNumOrNullOpt (getField o "threshold_percent") &&
  isNumOrNullOpt (getField o "value_percent") &&
  isStrOrNull (getField o "policy_name") &&
  isStrOrNull (getField o "condition_name") &&
  isStrOrNull (getField o "violation_started_raw") &&
  isStrOrNull (getField o "gcp_alert_url") &&
  isNumV (getField o "confidence") &&
  isStrArray (getField o "missing_fields") &&
  isStrV (getField o "parse_method") &&
  isStrOrNullOpt (getField o "user_intent") &&
  isStrOrNullOpt (getField o "service_name") &&
  isStrOrNullOpt (getField o "schedule_name") &&
  isStrOrNullOpt (getField o "schedule_expression") &&
  isStrOrNullOpt (getField o "duration_sec") &&
  isStrOrNullOpt (getField o "min_replicas") &&
  isStrOrNullOpt (getField o "environment") &&
  isStrOrNullOpt (getField o "current_machine_type") &&
  isStrOrNullOpt (getField o "target_machine_type")

/-- `validateParsedAlert(o)` on an object: `ParsedAlertSchema.parse(o)`,
which returns the object on success and throws a ZodError otherwise.
(`.passthrough()` keeps unknown fields, so success returns the fields
unchanged.) -/
def validateParsedAlert (o : Obj) : Except String Obj :=
  if parsedAlertChecks o then .ok o else .error "ZodError: invalid parsed alert"

/-- `validateParsedAlert` on an arbitrary value (zod rejects non-objects). -/
def validateParsedAlertV (v : Value) : Except String Obj :=
  match v with
  | .vObj fs => validateParsedAlert fs
  | _ => .error "ZodError: expected object"

/-! ## Pattern matcher (`applyPattern`, `src/parser/parserEngine.js`) -/

/-- The string argument handed to `new RegExp(v, "i")`: `undefined` is
special-cased to the empty pattern, everything else is string-coerced. -/
def regexArgStr (lib : JsLib) (v : Value) : String :=
  match v with
  | .vUndef => ""
  | _ => lib.toStr v

/-- `applyPattern(pattern, text)`: for a `"regex"`-typed pattern, compile
the expression case-insensitively (throwing on an invalid expression),
match it against the text, and on success project the configured capture
groups into fields, number-coercing any field whose name contains
"percent", "threshold" or "value" and omitting unmatched groups.
Non-regex patterns yield no match. -/
def applyPattern (lib : JsLib) (pattern : Value) (text : String) :
    Except String (Option Obj) := do
  let ty ← getFEx pattern "type"
  if eqStr ty "regex" then
    let pstr := regexArgStr lib (getF pattern "pattern")
    if lib.regexCompileI pstr then
      match lib.regexMatchI pstr text with
      | none => .ok none
      | some arr =>
        let cg := getF pattern "capture_groups"
        let extracted :=
          if jsTruthy cg then
            (entriesOf cg).foldl (fun acc kv =>
              match matchIndex arr (parseIntJs lib kv.2) with
              | none => acc
              | some value =>
                if strContains kv.1 "percent" || strContains kv.1 "threshold" ||
                    strContains kv.1 "value" then
                  setKey acc kv.1 (lib.numOfStr value)
                else
                  setKey acc kv.1 (.vStr value)) []
          else []
        .ok (some extracted)
    else
      .error "SyntaxError: invalid regular expression"
  else
    .ok none

/-! ## Policy-based parser (`tryPolicyParsing`) -/

/-- The element sequence of a `for...of` loop over a truthy value. -/
def iterElems : Value → Except String (List Value)
  | .vArr xs => .ok xs
  | .vStr s => .ok (s.toList.map (fun c => .vStr (String.singleton c)))
  | _ => .error "TypeError: value is not iterable"

/-- The inner pattern loop: try the patterns in order, stop at the first
one that matches (OR logic; `break` on first match, so `extracted` is
exactly that pattern's projection). -/
def firstPatternMatch (lib : JsLib) (text : String) :
    List Value → Except String (Option Obj)
  | [] => .ok none
  | p :: rest => do
    match ← applyPattern lib p text with
    | some extracted => .ok (some extracted)
    | none => firstPatternMatch lib text rest

/-- One `a ?? b ?? dflt` required-field line of the merge:
`extracted[k] ?? policy.extraction_rules[k] ?? dflt`, with the
extraction-rules read throwing when `extraction_rules` is nullish (and
skipped entirely when the extracted field is already non-nullish). -/
def fallbackField (extracted : Obj) (er : Value) (k : String) (dflt : Value) :
    Except String Value := do
  let a := getField extracted k
  if !(jsNullish a) then .ok a
  else do
    let b ← getFEx er k
    if !(jsNullish b) then .ok b else .ok dflt

/-- The merged record built on a policy match:
`{...policy.extraction_rules, ...extracted}` with the required-field
fallback lines for `threshold_percent`, `value_percent`, `metric_labels`,
`missing_fields`, `confidence` and `parse_method`. -/
def buildPolicyParsed (policy : Value) (extracted : Obj) : Except String Obj := do
  let er := getF policy "extraction_rules"
  let base := mergeEntries (mergeObj [] er) extracted
  let tp ← fallbackField extracted er "threshold_percent" .vNull
  let vp ← fallbackField extracted er "value_percent" .vNull
  let ml ← fallbackField extracted er "metric_labels" (.vObj [])
  let mf ← fallbackField extracted er "missing_fields" (.vArr [])
  let cf ← fallbackField extracted er "confidence" (.vNum (7/10))
  let pm ← fallbackField extracted er "parse_method" (.vStr "policy")
  .ok (setKey (setKey (setKey (setKey (setKey (setKey base
        "threshold_percent" tp) "value_percent" vp) "metric_labels" ml)
        "missing_fields" mf) "confidence" cf) "parse_method" pm)

/-- The loop body of `tryPolicyParsing` for a single policy: skip it when
it has no patterns (zero-pattern policies rely on LLM parsing), skip
`add_memory_to_vm` on disk/storage text lacking a memory/RAM keyword,
then try the patterns as alternatives; on a first match, merge with the
extraction rules and validate. -/
def tryPolicyOne (lib : JsLib) (text : String) (policy : Value) :
    Except String (Option (Obj × Value)) := do
  let pats ← getFEx policy "patterns"
  if !(jsTruthy pats) || jsStrictEq (lengthOf pats) (.vNum 0) then
    .ok none
  else if eqStr (getF policy "alert_type") "add_memory_to_vm" &&
      (strContainsCI text "disk" || strContainsCI text "storage") &&
      !(strContainsCI text "memory" || strContainsCI text "ram") then
    .ok none
  else do
    let elems ← iterElems pats
    match ← firstPatternMatch lib text elems with
    | none => .ok none
    | some extracted => do
      let parsed ← buildPolicyParsed policy extracted
      let validated ← validateParsedAlert parsed
      .ok (some (validated, policy))

/-- `tryPolicyParsing(text)` over the loaded policy list: first matching
policy wins; `none` models `{matched: false}`. -/
def tryPolicyParsing (lib : JsLib) (policies : List Value) (text : String) :
    Except String (Option (Obj × Value)) :=
  match policies with
  | [] => .ok none
  | policy :: rest => do
    match ← tryPolicyOne lib text policy with
    | some r => .ok (some r)
    | none => tryPolicyParsing lib rest text

/-! ## Policy store (`loadPolicies`, `reloadPolicies`) -/

/-- Outcome of resolving and reading the policies file
(`existsSync` + `readFileSync`). -/
inductive FileRead where
  | missing
  | content (s : String)

/-- The filesystem as the policy store sees it. -/
structure FsEnv where
  read : FileRead

/-- `loadPolicies()`: return the cache when present; otherwise read the
policies file, parse it as JSON, and require a truthy `policies` array.
The pair is (returned policy list, cache afterwards).  No pattern
expression is inspected here. -/
def loadPolicies (lib : JsLib) (fs : FsEnv) (cache : Option (List Value)) :
    Except String (List Value × Option (List Value)) :=
  match cache with
  | some c => .ok (c, some c)
  | none =>
    match fs.read with
    | .missing => .error "Policies file not found"
    | .content s =>
      match lib.jsonParse s with
      | .error m => .error ("Invalid JSON in policies file: " ++ m)
      | .ok data => do
        let ps ← getFEx data "policies"
        match ps with
        | .vArr xs => .ok (xs, some xs)
        | _ => .error "Policies file must contain a 'policies' array"

/-- `reloadPolicies()`: clear the cache, then load.  The first component
is the returned/thrown outcome, the second the cache afterwards (the
cache is nulled before the load, so a failed load leaves it empty). -/
def reloadPolicies (lib : JsLib) (fs : FsEnv) (_cache : Option (List Value)) :
    Except String (List Value) × Option (List Value) :=
  match loadPolicies lib fs none with
  | .ok (ps, c) => (.ok ps, c)
  | .error e => (.error e, none)

/-! ## Model-backed parser (`tryLLMWithModel`, `tryLLMParsing`) -/

/-- Outcome of a `fetch` call: a settled response, an abort (timeout), or
a network rejection. -/
inductive FetchOutcome where
  | resp (ok : Bool) (status : Nat) (body : String)
  | abortErr
  | netErr (msg : String)

/-- The Ollama backend and its configuration as one request sees it:
the resolved base URL, the configured preferred model, the `/api/tags`
health-check outcome, and the `/api/chat` outcome per model name (the
request body is absorbed into the outcome). -/
structure LlmEnv where
  url : String
  primaryModelRaw : String
  health : FetchOutcome
  chat : String → FetchOutcome

/-- Result of one model attempt inside the cascade. -/
inductive LlmStep where
  | matchedP (parsed : Obj)
  | notMatched
  | retry (err : String)

/-- Strip `"```json"` or `"```"` plus following whitespace from the front
(`content.replace(/^```json\s*/, "")`). -/
def dropLeadingFence (s : String) (n : Nat) : String :=
  ⟨(s.drop n).toList.dropWhile (fun c => c.isWhitespace)⟩

/-- Strip a trailing fence plus preceding whitespace
(`content.replace(/\s*```$/, "")`). -/
def dropTrailingFence (s : String) : String :=
  if jsEndsWith s "```" then
    ⟨((s.dropRight 3).toList.reverse.dropWhile (fun c => c.isWhitespace)).reverse⟩
  else s

/-- `content.match(/\{[\s\S]*\}/)`: the greedy span from the first
opening brace to the last closing brace, when one exists. -/
def extractJsonSpan (s : String) : Option String :=
  let cs := s.toList
  match cs.findIdx? (fun c => c == '\x7b'), cs.reverse.findIdx? (fun c => c == '\x7d') with
  | some i, some jr =>
    let j := cs.length - 1 - jr
    if i < j then some ⟨(cs.drop i).take (j - i + 1)⟩ else none
  | _, _ => none

/-- The markdown-fence and embedded-JSON cleanup applied to a model
reply before `JSON.parse`. -/
def cleanLlmContent (s0 : String) : String :=
  let s1 := jsTrim s0
  let s2 :=
    if jsStartsWith s1 "```json" then dropTrailingFence (dropLeadingFence s1 7)
    else if jsStartsWith s1 "```" then dropTrailingFence (dropLeadingFence s1 3)
    else s1
  match extractJsonSpan s2 with
  | some j => j
  | none => s2

/-- `tryLLMWithModel(ollamaUrl, model, prompt)`: one bounded chat call.
Timeouts, EOF-class failures, JSON-shaped reply problems and validation
failures are retryable (`retry`); a reply whose JSON has a nullish
`alert_type` is the terminal negative (`notMatched`); other errors are
thrown (`Except.error`, rethrown to the cascade loop's catch). -/
def tryLLMWithModel (lib : JsLib) (env : LlmEnv) (model : String) :
    Except String LlmStep :=
  match env.chat model with
  | .abortErr => .ok (.retry ("Request to " ++ model ++ " timed out"))
  | .netErr msg =>
    if strContains msg "EOF" then .ok (.retry msg) else .error msg
  | .resp ok status body =>
    if !ok then
      match lib.jsonParse body with
      | .ok errorJson =>
        let errorDetail :=
          if jsTruthy (getF errorJson "error") then getF errorJson "error" else .vStr body
        match errorDetail with
        | .vStr d =>
          if strContains d "EOF" || strContains body "EOF" then
            .ok (.retry ("Model " ++ model ++ " returned EOF error"))
          else
            .error ("Ollama API error: " ++ toString status ++ " - " ++ body)
        | _ => .error ("Ollama API error: " ++ toString status ++ " - " ++ body)
      | .error pmsg =>
        if strContains pmsg "EOF" then
          .ok (.retry ("Model " ++ model ++ " returned EOF error"))
        else
          .error ("Ollama API error: " ++ toString status ++ " - " ++ body)
    else
      match lib.jsonParse body with
      | .error msg =>
        if strContains msg "EOF" then .ok (.retry msg)
        else .ok (.retry ("Invalid JSON response from " ++ model ++ ": " ++ msg))
      | .ok data =>
        let c1 := getF (getF data "message") "content"
        let content := if jsTruthy c1 then c1 else getF data "response"
        let content := if jsTruthy content then content else .vStr ""
        if !(jsTruthy content) then .error "Empty response from Ollama"
        else
          match content with
          | .vStr s0 =>
            match lib.jsonParse (cleanLlmContent s0) with
            | .error msg =>
              if strContains msg "EOF" then .ok (.retry msg)
              else .ok (.retry ("Invalid JSON response from " ++ model ++ ": " ++ msg))
            | .ok parsed =>
              match parsed with
              | .vNull => .error "TypeError: cannot read properties of null (reading alert_type)"
              | _ =>
                if jsNullish (getF parsed "alert_type") then .ok .notMatched
                else
                  match validateParsedAlertV parsed with
                  | .ok validated => .ok (.matchedP validated)
                  | .error ve => .ok (.retry ("Validation failed: " ++ ve))
          | _ => .error "TypeError: content.trim is not a function"

/-- The result record of `parseAlert` / `tryLLMParsing`
(`matched`/`parsed`/`policy`/`modelUsed`/`error`). -/
structure ParseResult where
  matched : Bool
  parsed : Option Obj
  policy : Option Value
  modelUsed : Option String
  error : Option String

/-- Build `modelsToTry`: the primary model first, then every other
available non-embedding model, skipping duplicates.  A non-string model
name other than the primary throws. -/
def buildModelsToTry (primary : String) (avail : List Value) :
    Except String (List String) :=
  avail.foldlM (fun acc m =>
    if jsStrictEq m (.vStr primary) then .ok acc
    else
      match m with
      | .vStr s =>
        if !(strContains s "embed") && !(acc.contains s) then .ok (acc ++ [s]) else .ok acc
      | _ => .error "TypeError: model.includes is not a function") [primary]

/-- The sequential model cascade: matched stops with its policy lookup,
the terminal negative stops with a bare not-matched, retryable and thrown
failures accumulate an error and move to the next model; exhaustion
yields the aggregated all-models-failed result. -/
def llmCascade (lib : JsLib) (env : LlmEnv) (policies : List Value) :
    List String → List String → Except String ParseResult
  | errors, [] =>
    .ok ⟨false, none, none, none,
      some ("All models failed. Errors: " ++ String.intercalate "; " errors ++
        ". Policy-based parsing is recommended for reliable results.")⟩
  | errors, model :: rest =>
    match tryLLMWithModel lib env model with
    | .error e => llmCascade lib env policies (errors ++ [model ++ ": " ++ e]) rest
    | .ok (.matchedP parsed) =>
      let matchingPolicy := policies.find? (fun p =>
        jsStrictEq (getF p "alert_type") (getField parsed "alert_type"))
      .ok ⟨true, some parsed, matchingPolicy, some model, none⟩
    | .ok .notMatched => .ok ⟨false, none, none, none, none⟩
    | .ok (.retry err) => llmCascade lib env policies (errors ++ [model ++ ": " ++ err]) rest

/-- Default a bare model name to its `:latest` tag. -/
def tagPrimary (raw : String) : String :=
  if strContains raw ":" then raw else raw ++ ":latest"

/-- `modelsData.models?.map(m => m.name) || []`: the available model
names, empty for a nullish models field, a TypeError for a non-array,
and a TypeError for a nullish element. -/
def availModelsOf : Value → Except String (List Value)
  | .vNull => .ok []
  | .vUndef => .ok []
  | .vArr xs => xs.foldlM (fun acc m => do
      let n ← getFEx m "name"
      Except.ok (acc ++ [n])) []
  | _ => .error "TypeError: modelsData.models.map is not a function"

/-- The tail of `tryLLMParsing` past the health check: a failed model
enumeration is caught into the cannot-connect result, no models is a
soft failure, then the cascade runs on the built model list. -/
def tryLLMAfterModels (lib : JsLib) (env : LlmEnv) (policies : List Value) :
    Except String (List Value) → Except String ParseResult
  | .error m =>
    .ok ⟨false, none, none, none,
      some ("Cannot connect to Ollama at " ++ env.url ++
        ". Make sure Ollama is running: " ++ m)⟩
  | .ok avail =>
    if avail.length == 0 then
      .ok ⟨false, none, none, none,
        some "No models available in Ollama. Pull a model first: ollama pull llama3.1"⟩
    else
      match buildModelsToTry (tagPrimary env.primaryModelRaw) avail with
      | .error e => .error e
      | .ok modelsToTry => llmCascade lib env policies [] modelsToTry

/-- `tryLLMParsing(text)`: default-tag the preferred model, health-check
the backend (soft not-matched on failure), enumerate the available
models, then run the cascade. -/
def tryLLMParsing (lib : JsLib) (env : LlmEnv) (policies : List Value) :
    Except String ParseResult :=
  match env.health with
  | .abortErr =>
    .ok ⟨false, none, none, none,
      some ("Ollama health check timed out. Make sure Ollama is running at " ++ env.url)⟩
  | .netErr m =>
    .ok ⟨false, none, none, none,
      some ("Cannot connect to Ollama at " ++ env.url ++
        ". Make sure Ollama is running: " ++ m)⟩
  | .resp ok _ body =>
    if !ok then
      .ok ⟨false, none, none, none, some ("Ollama server not accessible at " ++ env.url)⟩
    else
      match lib.jsonParse body with
      | .error m =>
        .ok ⟨false, none, none, none,
          some ("Cannot connect to Ollama at " ++ env.url ++
            ". Make sure Ollama is running: " ++ m)⟩
      | .ok modelsData =>
        tryLLMAfterModels lib env policies (availModelsOf (getF modelsData "models"))

/-! ## Parser engine orchestration (`parseAlert`) -/

/-- The detection-feature denylist read from the environment
(`DISABLE_SCALING_INTENT_DETECTION`, `DISABLE_ADD_MEMORY_DETECTION`). -/
structure ParseConfig where
  disableScalingIntent : Bool
  disableAddMemory : Bool

/-- The LLM stage of `parseAlert`: run the model-backed parser, apply the
denylist to its result, merge with the fall-through policy when one was
identified, and fall back to the uniform not-matched result. -/
def parseAlertLlmStage (lib : JsLib) (cfg : ParseConfig) (env : LlmEnv)
    (policies : List Value) (fallThrough : Option (Obj × Value)) :
    Except String ParseResult := do
  let llmResult ← tryLLMParsing lib env policies
  if llmResult.matched then
    match llmResult.parsed with
    | some lparsed =>
      if cfg.disableScalingIntent &&
          eqStr (getField lparsed "alert_type") "scaling_intent_detected" then
        .ok ⟨false, none, none, none, none⟩
      else if cfg.disableAddMemory &&
          eqStr (getField lparsed "alert_type") "add_memory_to_vm" then
        .ok ⟨false, none, none, none, none⟩
      else
        match fallThrough with
        | some (_, policy) => do
          let merged := setKey
            (mergeEntries (mergeObj [] (getF policy "extraction_rules")) lparsed)
            "parse_method" (.vStr "llm")
          let validated ← validateParsedAlert merged
          .ok ⟨true, some validated, some policy, llmResult.modelUsed, none⟩
        | none => .ok llmResult
    | none => .ok llmResult
  else
    .ok ⟨false, none, none, none, some "Could not parse alert with policy or LLM"⟩

/-- `parseAlert(text)`: policy-based parsing first with the denylist
applied to the identified policy's alert type; a matched
`add_memory_to_vm` record with a missing critical field (service name,
current or target machine type, in either naming convention) falls
through to the LLM stage remembering the policy; otherwise the policy
result is returned; with no policy match the LLM stage runs alone. -/
def parseAlert (lib : JsLib) (cfg : ParseConfig) (env : LlmEnv)
    (policies : List Value) (text : String) : Except String ParseResult := do
  match ← tryPolicyParsing lib policies text with
  | some (parsed, policy) =>
    if cfg.disableScalingIntent &&
        eqStr (getF policy "alert_type") "scaling_intent_detected" then
      .ok ⟨false, none, none, none, none⟩
    else if cfg.disableAddMemory &&
        eqStr (getF policy "alert_type") "add_memory_to_vm" then
      .ok ⟨false, none, none, none, none⟩
    else
      let alertType := getField parsed "alert_type"
      if eqStr alertType "add_memory_to_vm" then
        let hasServiceName := jsTruthy (getField parsed "service_name") ||
          jsTruthy (getField parsed "serviceName")
        let hasCurrentMachineType := jsTruthy (getField parsed "current_machine_type") ||
          jsTruthy (getField parsed "currentMachineType")
        let hasTargetMachineType := jsTruthy (getField parsed "target_machine_type") ||
          jsTruthy (getField parsed "targetMachineType")
        if hasServiceName && hasCurrentMachineType && hasTargetMachineType then
          .ok ⟨true, some parsed, some policy, none, none⟩
        else
          parseAlertLlmStage lib cfg env policies (some (parsed, policy))
      else
        .ok ⟨true, some parsed, some policy, none, none⟩
  | none => parseAlertLlmStage lib cfg env policies none

/-! ## Decision engine (`src/decision/decide.js`) -/

/-- Evaluate one field condition of a rule (the body of the
`evaluateCondition` entry loop): nullish condition is a null/absence
check; object conditions try `startsWith`, `equals`, `contains`,
`matches` in that order on the first truthy key and fail closed on an
unrecognized shape; anything else is a strict-equality check.  The
`matches` branch compiles its pattern (throwing on an invalid
expression) and tests the string-coerced field value. -/
def evalFieldCondition (lib : JsLib) (parsed : Obj) (field : String)
    (fieldCondition : Value) : Except String Bool :=
  let fieldValue := getField parsed field
  if jsNullish fieldCondition then
    .ok (jsNullish fieldValue)
  else
    match fieldCondition with
    | .vObj _ | .vArr _ =>
      let sw := getF fieldCondition "startsWith"
      let eqv := getF fieldCondition "equals"
      let ct := getF fieldCondition "contains"
      let mt := getF fieldCondition "matches"
      if jsTruthy sw then
        .ok (jsTruthy fieldValue &&
          jsStartsWith (lib.toStr fieldValue) (lib.toStr sw))
      else if jsTruthy eqv then
        .ok (jsStrictEq fieldValue eqv)
      else if jsTruthy ct then
        .ok (jsTruthy fieldValue && strContains (lib.toStr fieldValue) (lib.toStr ct))
      else if jsTruthy mt then
        let pat := regexArgStr lib mt
        if lib.regexCompile pat then
          .ok (jsTruthy fieldValue && lib.regexTest pat (lib.toStr fieldValue))
        else
          .error "SyntaxError: invalid regular expression"
      else
        .ok false
    | _ => .ok (jsStrictEq fieldValue fieldCondition)

/-- `evaluateCondition(condition, parsed)`: false for non-objects, else
every field condition must hold (AND, short-circuiting on the first
failing field). -/
def evaluateCondition (lib : JsLib) (condition : Value) (parsed : Obj) :
    Except String Bool :=
  if !(jsTruthy condition) then .ok false
  else
    match condition with
    | .vObj fs => go fs
    | .vArr xs => go (entriesOf (.vArr xs))
    | _ => .ok false
where
  go : List (String × Value) → Except String Bool
    | [] => .ok true
    | (field, fc) :: rest => do
      if ← evalFieldCondition lib parsed field fc then go rest else .ok false

/-- `decide(parsed, policy)`: `NO_ACTION` without a (truthy) policy; else
the first decision rule whose condition holds wins; else the policy's
truthy `default_decision`; else `NO_ACTION`.  Returns the
`{decision: ...}` record. -/
def decide (lib : JsLib) (parsed : Obj) (policy : Value) : Except String Obj :=
  if !(jsTruthy policy) then .ok [("decision", .vStr "NO_ACTION")]
  else do
    let rules := getF policy "decision_rules"
    let ruleHit ←
      match rules with
      | .vArr rs => firstRule rs
      | _ => pure none
    match ruleHit with
    | some d => .ok [("decision", d)]
    | none =>
      let dd := getF policy "default_decision"
      if jsTruthy dd then .ok [("decision", dd)]
      else .ok [("decision", .vStr "NO_ACTION")]
where
  firstRule : List Value → Except String (Option Value)
    | [] => .ok none
    | rule :: rest => do
      if ← evaluateCondition lib (getF rule "condition") parsed then
        .ok (some (getF rule "decision"))
      else
        firstRule rest

/-! ## Action/report formatter (`src/report/formatReport.js`) -/

/-- `a || b`. -/
def jsOr2 (a b : Value) : Value :=
  if jsTruthy a then a else b

/-- `parsed.k1 || parsed.k2 || dflt`. -/
def fb3 (o : Obj) (k1 k2 : String) (dflt : Value) : Value :=
  jsOr2 (getField o k1) (jsOr2 (getField o k2) dflt)

/-- Outcome of an awaited MCP client call: a resolved value or a
rejection. -/
inductive McpOutcome where
  | resolved (v : Value)
  | threw (msg : String)

/-- The formatter's external collaborators: the two diff-generating MCP
tools, the scale-PR script file, and the clock (for the generated
default schedule name). -/
structure McpEnv where
  terragrunt : Obj → McpOutcome
  machineType : Obj → McpOutcome
  readScript : Except String String
  nowMs : Nat

/-- Is a key regex-literal, so that `new RegExp("\\{" ++ k ++ "\\}", "g")`
matches exactly the literal placeholder? -/
def regexLiteralKey (k : String) : Bool :=
  k.toList.all (fun c => c.isAlphanum || c == '_')

/-- The literal placeholder text for a field. -/
def placeholder (k : String) : String :=
  "\x7b" ++ k ++ "\x7d"

/-- One iteration of the plain-template substitution loop: skip nullish
values; otherwise globally replace the field's placeholder with the
string-coerced value (delegating to the abstract regex engine when the
key is not regex-literal, where compilation may throw). -/
def plainTemplateStep (lib : JsLib) (acc : String) (k : String) (v : Value) :
    Except String String :=
  if jsNullish v then .ok acc
  else if regexLiteralKey k then
    .ok (jsReplaceAll acc (placeholder k) (lib.toStr v))
  else
    match lib.regexReplaceAllG ("\\\x7b" ++ k ++ "\\\x7d") (lib.toStr v) acc with
    | some r => .ok r
    | none => .error "SyntaxError: invalid regular expression"

/-- The plain-template substitution loop over the parsed record's
entries, in entry order. -/
def formatPlainTemplate (lib : JsLib) (parsed : Obj) (t : String) :
    Except String String :=
  parsed.foldlM (fun acc kv => plainTemplateStep lib acc kv.1 kv.2) t

/-- The fixed request-format text returned for the git-PR presentation of
the terragrunt tool. -/
def gitPRRequestText : String :=
  "I need the following information in this format to make you a PR for scaling up\n-----\nSCALEPRREQUEST\nStart: mm hh dd MM * YYYY (eq \"30 17 4 02 * 2026\" for 17:30 Feb 2nd 2026) (UTC zone)\nDuration: seconds (eq 7200 for 2 hours)\nname: scale up name (eq big sale)\n------"

/-- Replace every dash by an underscore (the global dash-regex replace). -/
def dashesToUnderscores (s : String) : String :=
  ⟨s.toList.map (fun c => if c == '-' then '_' else c)⟩

/-- `formatActionTemplate(template, parsed, originalText, isGitPR,
gcloudCommandTemplate, policy)`: `null` for a falsy template; `"MCP:"`
templates dispatch on the tool name, catching tool failures into
error-text results; other templates get per-field placeholder
substitution. -/
def formatActionTemplate (lib : JsLib) (mcp : McpEnv) (template : Value)
    (parsed : Obj) (isGitPR : Bool) (gcloudCommandTemplate : Value)
    (policyArg : Value) : Except String (Option String) :=
  if !(jsTruthy template) then .ok none
  else
    match template with
    | .vStr t =>
      if jsStartsWith t "MCP:" then
        let mcpTool := t.drop 4
        if isGitPR && mcpTool == "generate_terragrunt_autoscaler_diff" then
          .ok (some gitPRRequestText)
        else if mcpTool == "execute_gcloud_scale_up" then
          if !(jsTruthy gcloudCommandTemplate) then
            .ok (some "*GCP Scale-Up Command:*\n\n❌ No gcloud command template found in policy. Please add `gcloud_command_template` to the action template.")
          else
            match gcloudCommandTemplate with
            | .vStr g =>
              .ok (some ("*GCP Scale-Up Command:*\n```\n" ++ jsTrim g ++
                "\n```\n\n✅ Ready to execute when approved"))
            | _ => .error "TypeError: gcloudCommandTemplate.trim is not a function"
        else if mcpTool == "generate_terragrunt_autoscaler_diff" then
          let params : Obj :=
            [("serviceName", fb3 parsed "service_name" "serviceName" (.vStr "api")),
             ("scheduleName", fb3 parsed "schedule_name" "scheduleName"
                (.vStr ("scale-up-" ++ toString mcp.nowMs))),
             ("scheduleExpression", fb3 parsed "schedule_expression" "scheduleExpression"
                (.vStr "s(local.sch_1730_utc) 12 $(local.sch_jan_2026)")),
             ("durationSec", fb3 parsed "duration_sec" "durationSec"
                (.vStr "local.sch_02_hours")),
             ("minReplicas", fb3 parsed "min_replicas" "minReplicas"
                (.vStr "local.sch_moderate_high")),
             ("timeZone", fb3 parsed "time_zone" "timeZone" (.vStr "Etc/UTC"))]
          match mcp.terragrunt params with
          | .threw m => .ok (some ("Error generating autoscaler diff: " ++ m))
          | .resolved r =>
            if jsTruthy (getF r "success") && jsTruthy (getF r "diff") then
              .ok (some ("Generated terragrunt autoscaler configuration diff:\n\n```diff\n" ++
                lib.toStr (getF r "diff") ++ "```"))
            else
              .ok (some ("Failed to generate autoscaler diff: " ++
                (if jsTruthy (getF r "error") then lib.toStr (getF r "error")
                 else "Unknown error")))
        else if mcpTool == "generate_machine_type_diff" then
          let sn0 := fb3 parsed "service_name" "serviceName" .vNull
          let snE : Except String Value :=
            if jsTruthy sn0 then
              match sn0 with
              | .vStr s =>
                if strContains s "-" then
                  let parts := jsSplitOn s "-"
                  if parts.length ≥ 3 then
                    .ok (.vStr (dashesToUnderscores
                      (String.intercalate "-" (parts.drop 2))))
                  else if parts.length == 2 then
                    .ok (.vStr (dashesToUnderscores (parts.getD 1 "")))
                  else
                    .ok (.vStr s)
                else .ok (.vStr s)
              | _ => .error "TypeError: serviceName.includes is not a function"
            else .ok sn0
          match snE with
          | .error e => .error e
          | .ok sn =>
            let cur := fb3 parsed "current_machine_type" "currentMachineType" .vNull
            let tgt := fb3 parsed "target_machine_type" "targetMachineType" .vNull
            let params : Obj :=
              [("environment", fb3 parsed "environment" "env" (.vStr "qaprod")),
               ("serviceName", sn),
               ("currentMachineType", cur),
               ("targetMachineType", tgt)]
            if !(jsTruthy sn) || !(jsTruthy cur) || !(jsTruthy tgt) then
              .ok (some ("Missing required parameters for machine type change. Need: service_name, current_machine_type, target_machine_type. Current values: " ++
                lib.stringify (.vObj params)))
            else
              match mcp.machineType params with
              | .threw m => .ok (some ("Error generating machine type diff: " ++ m))
              | .resolved r =>
                if jsTruthy (getF r "success") && jsTruthy (getF r "diff") then
                  .ok (some ("Generated machine type change diff:\n\n```diff\n" ++
                    lib.toStr (getF r "diff") ++ "```"))
                else
                  .ok (some ("Failed to generate machine type diff: " ++
                    (if jsTruthy (getF r "error") then lib.toStr (getF r "error")
                     else "Unknown error")))
        else if mcpTool == "generate_scaling_schedule_yaml_diff" then
          let schedule := jsOr2 (getField parsed "schedule") (jsOr2 (getField parsed "start") .vNull)
          let duration := jsOr2 (getField parsed "duration") (jsOr2 (getField parsed "duration_sec") .vNull)
          let name := jsOr2 (getField parsed "ticket_number")
            (jsOr2 (getField parsed "name") (jsOr2 (getField parsed "schedule_name") .vNull))
          if !(jsTruthy schedule) || !(jsTruthy duration) || !(jsTruthy name) then
            .ok (some ("Missing required parameters for scaling schedule. Need: schedule (mm hh dd MM * YYYY), duration (seconds), ticket_number. Current values: schedule=" ++
              lib.toStr schedule ++ ", duration=" ++ lib.toStr duration ++
              ", ticket_number=" ++ lib.toStr name))
          else
            match mcp.readScript with
            | .error m => .ok (some ("Error preparing scaling schedule script: " ++ m))
            | .ok script =>
              match name with
              | .vStr ns =>
                match schedule with
                | .vStr ss =>
                  let ticketNumber := jsTrim ns
                  let scheduleString := jsTrim ss
                  let durationString := lib.toStr duration
                  let c1 := jsReplaceAll script "REPLACEWITHSCHEDULENAME" ticketNumber
                  let c2 := jsReplaceAll c1 "REPLACEWITHUSERINPUTSCHEDULE" scheduleString
                  let c3 := jsReplaceAll c2 "REPLACEWITHUSERINPUTDURATION" durationString
                  let c4 := jsReplaceAll c3 "# big sale" ("# " ++ ticketNumber)
                  let c5 := jsReplaceAll c4 "feat: append big sale scaling schedule"
                    ("feat: append " ++ ticketNumber ++ " scaling schedule")
                  .ok (some ("*Script that will be executed:*\n\n```bash\n" ++ c5 ++
                    "```\n\n*Parameters:*\n- Ticket Number: " ++ ticketNumber ++
                    "\n- Schedule: " ++ scheduleString ++ "\n- Duration: " ++
                    durationString ++ " seconds"))
                | _ => .ok (some "Error preparing scaling schedule script: schedule.trim is not a function")
              | _ => .ok (some "Error preparing scaling schedule script: name.trim is not a function")
        else if mcpTool == "create_scaling_schedule_pr" then
          let schedule := jsOr2 (getField parsed "schedule") (jsOr2 (getField parsed "start") .vNull)
          let duration := jsOr2 (getField parsed "duration") (jsOr2 (getField parsed "duration_sec") .vNull)
          let name := jsOr2 (getField parsed "ticket_number")
            (jsOr2 (getField parsed "name") (jsOr2 (getField parsed "schedule_name") .vNull))
          if !(jsTruthy schedule) || !(jsTruthy duration) || !(jsTruthy name) then
            .ok (some ("Missing required parameters. Need: schedule (mm hh dd MM * YYYY), duration (seconds), ticket_number. Current: schedule=" ++
              lib.toStr schedule ++ ", duration=" ++ lib.toStr duration ++
              ", ticket_number=" ++ lib.toStr name))
          else
            let ticketNumber := jsTrim (lib.toStr name)
            let scheduleString := jsTrim (lib.toStr schedule)
            let filePath := "production/scaling_schedules/api_disconnect_gacha_login_tmt.yaml"
            let owner := jsOr2 (getF policyArg "github_owner") (.vStr "?")
            let repo := jsOr2 (getF policyArg "github_repo") (.vStr "?")
            let yamlBlock := "# " ++ ticketNumber ++
              "\n- name                  : " ++ ticketNumber ++
              "\n  schedule              : " ++ scheduleString ++
              "\n  duration_sec          : " ++ lib.toStr duration ++
              "\n  min_required_replicas : $\x7bsch_high\x7d" ++
              "\n  time_zone             : Etc/UTC"
            .ok (some ("*PR that will be created (via GitHub API):*\n\n*Repo:* `" ++
              lib.toStr owner ++ "/" ++ lib.toStr repo ++ "`\n*File:* `" ++ filePath ++
              "`\n*Commit:* `feat: append " ++ ticketNumber ++
              " scaling schedule`\n\n*YAML to append:*\n\n```yaml\n" ++ yamlBlock ++
              "\n```\n\n*Parameters:*\n- Name: " ++ ticketNumber ++ "\n- Schedule: `" ++
              scheduleString ++ "`\n- Duration: " ++ lib.toStr duration ++
              " seconds\n\n✅ Click *Approve & Execute* to create the PR"))
        else
          .ok (some ("MCP tool: " ++ mcpTool))
      else do
        let action ← formatPlainTemplate lib parsed t
        .ok (some action)
    | _ => .error "TypeError: template.startsWith is not a function"

/-- `formatSummaryTemplate(template, actionOptions, parsed)`: substitute
the first `action_options` placeholder occurrence, run the per-field
substitution loop, and substitute a legacy `action` placeholder when the
original template mentions one and options exist. -/
def formatSummaryTemplate (lib : JsLib) (template : Value)
    (actionOptionsV : Value) (parsed : Obj) : Except String Value :=
  if !(jsTruthy template) then
    .ok (jsOr2 actionOptionsV (.vStr "No action template available"))
  else
    match template with
    | .vStr t => do
      let s1 := jsReplaceFirst t (placeholder "action_options")
        (lib.toStr (jsOr2 actionOptionsV (.vStr "No actions available")))
      let s2 ← formatPlainTemplate lib parsed s1
      let s3 :=
        if strContains t (placeholder "action") && jsTruthy actionOptionsV then
          jsReplaceFirst s2 (placeholder "action") (lib.toStr actionOptionsV)
        else s2
      .ok (.vStr s3)
    | _ => .error "TypeError: template.replace is not a function"

/-- One rendered action option (the records pushed onto `actionList`). -/
structure ActionOption where
  label : Value
  description : Value
  template : Value
  gcloudCommandTemplate : Value
  action : String

/-- The report produced by `formatReport`. -/
structure Report where
  parsed : Obj
  decision : Value
  action : Value
  actionOptions : Option (List ActionOption)
  summary : Value
  policy : Value
  mcpExecuted : Bool
  mcpResult : Value

/-- The per-template `isGitPR` test in the `formatReport` loop, with the
`&&`/`||` short-circuit order of the source. -/
def isGitPRFor (policy at_ : Value) : Except String Bool :=
  if !(eqStr (getF policy "alert_type") "scaling_intent_detected") then .ok false
  else do
    let lp ←
      match getF at_ "label" with
      | .vNull => .ok false
      | .vUndef => .ok false
      | .vStr s => .ok (strContains (jsToLowerStr s) "git pr")
      | _ => .error "TypeError: label.toLowerCase is not a function"
    if lp then .ok true
    else do
      let t1 ←
        match getF at_ "template" with
        | .vNull => .ok false
        | .vUndef => .ok false
        | .vStr s => .ok (strContains s "terragrunt_autoscaler_diff")
        | _ => .error "TypeError: template.includes is not a function"
      if !t1 then .ok false
      else
        match getF at_ "template" with
        | .vStr s => .ok (!(strContains s "execute_gcloud"))
        | _ => .error "TypeError: template.includes is not a function"

/-- The `formatReport` loop body for one action template: compute
`isGitPR`, render the template, and turn a truthy rendering into an
option record. -/
def renderActionOption (lib : JsLib) (mcp : McpEnv) (policy : Value)
    (parsed : Obj) (at_ : Value) : Except String (Option ActionOption) := do
  let isGitPR ← isGitPRFor policy at_
  let fa ← formatActionTemplate lib mcp (getF at_ "template") parsed isGitPR
    (jsOr2 (getF at_ "gcloud_command_template") .vNull) .vNull
  match fa with
  | some s =>
    if s != "" then
      .ok (some ⟨jsOr2 (getF at_ "label") (.vStr "Action"),
        jsOr2 (getF at_ "description") (.vStr ""),
        getF at_ "template",
        jsOr2 (getF at_ "gcloud_command_template") .vNull, s⟩)
    else .ok none
  | none => .ok none

/-- The options aggregate joined into the summary
(`*Option n: label*` blocks). -/
def joinActionOptions (lib : JsLib) (actionList : List ActionOption) : String :=
  String.intercalate "\n\n" (actionList.enum.map (fun p =>
    "*Option " ++ toString (p.1 + 1) ++ ": " ++ lib.toStr p.2.label ++ "*\n" ++
    (if jsTruthy p.2.description then lib.toStr p.2.description ++ "\n" else "") ++
    p.2.action))

/-- The `actionList` accumulation loop of `formatReport`: render each
action template in order, pushing the truthy renderings. -/
def collectActionOptions (lib : JsLib) (mcp : McpEnv) (policy : Value)
    (parsed : Obj) (templates : List Value) : Except String (List ActionOption) :=
  templates.foldlM (fun acc at_ => do
    match ← renderActionOption lib mcp policy parsed at_ with
    | some opt => pure (acc ++ [opt])
    | none => pure acc) ([] : List ActionOption)

/-- `formatReport({parsed, decision, policy, originalText})`: render each
action template of the policy independently into `actionList`, build the
aggregate and the backward-compatible `action`, handle the legacy single
`action_template`, strip the aggregate placeholders from the summary
template when multiple options exist, render the summary, and assemble
the report. -/
def formatReport (lib : JsLib) (mcp : McpEnv) (parsed : Obj)
    (decision : Value) (policy : Value) : Except String Report := do
  let ats := getF policy "action_templates"
  let (actionV, actionOptionsV, actionList) ←
    match ats with
    | .vArr templates => do
      let actionList ← collectActionOptions lib mcp policy parsed templates
      let actionOptionsV :=
        if actionList.length > 0 then Value.vStr (joinActionOptions lib actionList)
        else Value.vNull
      let firstAction :=
        match actionList.head? with
        | some o => Value.vStr o.action
        | none => Value.vUndef
      let actionV := jsOr2 actionOptionsV (jsOr2 firstAction .vNull)
      pure (actionV, actionOptionsV, actionList)
    | _ =>
      if jsTruthy (getF policy "action_template") then do
        let a ← formatActionTemplate lib mcp (getF policy "action_template") parsed
          false .vNull policy
        let actionV := match a with
          | some s => Value.vStr s
          | none => Value.vNull
        pure (actionV, actionV, ([] : List ActionOption))
      else
        pure (Value.vNull, Value.vNull, ([] : List ActionOption))
  let hasMultipleOptions := actionList.length > 0
  let st0 := getF policy "summary_template"
  let st ←
    if hasMultipleOptions && jsTruthy st0 then
      match st0 with
      | .vStr s =>
        pure (Value.vStr (jsReplaceAll (jsReplaceAll s (placeholder "action_options") "")
          (placeholder "action") ""))
      | _ => .error "TypeError: summaryTemplate.replace is not a function"
    else
      pure st0
  let summary ←
    if jsTruthy st then
      formatSummaryTemplate lib st
        (if hasMultipleOptions then .vNull else jsOr2 actionOptionsV actionV) parsed
    else
      pure (if hasMultipleOptions then Value.vNull
        else jsOr2 actionOptionsV (jsOr2 actionV (.vStr "Approval required")))
  .ok ⟨parsed, decision, actionV,
    (if actionList.length > 0 then some actionList else none),
    summary, policy, false, .vNull⟩

/-! ## Transport-side action validity (`server.js`) -/

/-- Case-insensitive prefix test (an `/^.../i` anchored regex). -/
def startsWithCI (s p : String) : Bool :=
  jsStartsWith (jsToLowerStr s) (jsToLowerStr p)

/-- The transport layer's `isActionValid(action)`: falsy actions are
invalid, and an action whose string form starts with one of the known
error shapes is invalid (its approve affordance is suppressed). -/
def isActionValid (lib : JsLib) (action : Value) : Bool :=
  if !(jsTruthy action) then false
  else
    let s := lib.toStr action
    !(startsWithCI s "Missing required parameters" ||
      startsWithCI s "Failed to generate" ||
      startsWithCI s "Error generating" ||
      startsWithCI s "MCP tool:")

/-! ## Witness environments and claim-side definitions -/

/-- A simple concrete string coercion for witness libraries. -/
def defaultToStr : Value → String
  | .vStr s => s
  | .vNull => "null"
  | .vUndef => "undefined"
  | .vBool true => "true"
  | .vBool false => "false"
  | .vNaN => "NaN"
  | .vNum _ => "num"
  | .vArr _ => ""
  | .vObj _ => "[object Object]"

/-- A witness library whose regex engine matches everything. -/
def witLib : JsLib :=
  ⟨fun _ => true, fun _ _ => some [some "m"], fun _ => true, fun _ _ => false,
   fun _ _ s => some s, fun _ => .error "no parse", fun _ => .vNaN, defaultToStr,
   fun _ => "x"⟩

/-- A witness library whose regex engine matches only the pattern "disk". -/
def witLibDiskOnly : JsLib :=
  ⟨fun _ => true, fun pat _ => if pat == "disk" then some [some "m"] else none,
   fun _ => true, fun _ _ => false, fun _ _ s => some s, fun _ => .error "no parse",
   fun _ => .vNaN, defaultToStr, fun _ => "x"⟩

/-- Extraction rules supplying every schema-required field. -/
def witER : Obj :=
  [("alert_type", .vStr "disk_utilization_low"),
   ("project_id", .vNull), ("instance_name", .vNull), ("policy_name", .vNull),
   ("condition_name", .vNull), ("violation_started_raw", .vNull),
   ("gcp_alert_url", .vNull)]

/-- A witness policy with one regex pattern. -/
def witPolicy : Value := .vObj
  [("alert_type", .vStr "disk_utilization_low"),
   ("patterns", .vArr [.vObj [("type", .vStr "regex"), ("pattern", .vStr "disk")]]),
   ("extraction_rules", .vObj witER)]

/-- The record the witness policy produces on a match. -/
def witParsed : Obj :=
  witER ++ [("threshold_percent", .vNull), ("value_percent", .vNull),
    ("metric_labels", .vObj []), ("missing_fields", .vArr []),
    ("confidence", .vNum (7/10)), ("parse_method", .vStr "policy")]

/-- A metadata-only policy with no patterns. -/
def zeroPatPolicy : Value := .vObj [("alert_type", .vStr "metadata_only")]

/-- A pattern whose expression matches nothing under `witLibDiskOnly`. -/
def witFailPattern : Value := .vObj [("type", .vStr "regex"), ("pattern", .vStr "nope")]

/-- A two-pattern policy: a failing alternative before the matching one,
plus a junk trailing pattern. -/
def witPolicyTwoPatterns : Value := .vObj
  [("alert_type", .vStr "disk_utilization_low"),
   ("patterns", .vArr [witFailPattern,
      .vObj [("type", .vStr "regex"), ("pattern", .vStr "disk")], .vStr "junk"]),
   ("extraction_rules", .vObj witER)]

/-- A pattern whose regular expression is invalid under `cexLib`. -/
def badPattern : Value := .vObj [("type", .vStr "regex"), ("pattern", .vStr "(")]

/-- A policy carrying the invalid pattern. -/
def badPolicy : Value := .vObj
  [("alert_type", .vStr "x"), ("patterns", .vArr [badPattern]),
   ("extraction_rules", .vObj witER)]

/-- A witness library whose regex compiler rejects exactly the
expression "(" and whose JSON parser yields the bad-policy file. -/
def cexLib : JsLib :=
  ⟨fun p => p != "(", fun _ _ => some [some "m"], fun p => p != "(", fun _ _ => false,
   fun _ _ s => some s, fun _ => .ok (.vObj [("policies", .vArr [badPolicy])]),
   fun _ => .vNaN, defaultToStr, fun _ => "x"⟩

/-- `cexLib` with a regex compiler that accepts everything (same JSON
parser). -/
def cexLibAcceptAll : JsLib :=
  ⟨fun _ => true, fun _ _ => some [some "m"], fun _ => true, fun _ _ => false,
   fun _ _ s => some s, fun _ => .ok (.vObj [("policies", .vArr [badPolicy])]),
   fun _ => .vNaN, defaultToStr, fun _ => "x"⟩

/-- Is the value one of the three decision strings? -/
def isDecisionStr (v : Value) : Bool :=
  eqStr v "AUTO_REPLACE" || eqStr v "NEEDS_APPROVAL" || eqStr v "NO_ACTION"

/-- Does the value have JavaScript object type (arrays included)? -/
def isObjLike : Value → Bool
  | .vObj _ => true
  | .vArr _ => true
  | _ => false

/-- The field condition cannot hit the evaluator's one throwing path:
whenever it is object-typed with a truthy `matches` entry, that
expression compiles. -/
def fieldCondRegexOk (lib : JsLib) (fc : Value) : Bool :=
  !(isObjLike fc && jsTruthy (getF fc "matches")) ||
    lib.regexCompile (regexArgStr lib (getF fc "matches"))

/-- A rule is decision-well-formed: its decision is one of the three and
its condition's regex predicates compile. -/
def ruleWellFormed (lib : JsLib) (rule : Value) : Bool :=
  isDecisionStr (getF rule "decision") &&
  (entriesOf (getF rule "condition")).all (fun kv => fieldCondRegexOk lib kv.2)

/-- A policy is decision-well-formed: every rule is, and the default
decision, when truthy, is one of the three. -/
def policyDecisionsWellFormed (lib : JsLib) (policy : Value) : Bool :=
  (match getF policy "decision_rules" with
   | .vArr rs => rs.all (ruleWellFormed lib)
   | _ => true) &&
  (!jsTruthy (getF policy "default_decision") ||
    isDecisionStr (getF policy "default_decision"))

/-- A policy whose matching rule returns a decision outside the closed
set. -/
def cexPolicyBadDecision : Value := .vObj
  [("decision_rules", .vArr [.vObj
     [("condition", .vObj []), ("decision", .vStr "SOMETHING_ELSE")]])]

/-- A policy whose reachable `matches` expression is invalid under
`cexLib`. -/
def cexPolicyBadRegex : Value := .vObj
  [("decision_rules", .vArr [.vObj
     [("condition", .vObj [("instance_name", .vObj [("matches", .vStr "(")])]),
      ("decision", .vStr "AUTO_REPLACE")]])]

/-- A decision-well-formed witness policy. -/
def witDecidePolicy : Value := .vObj
  [("decision_rules", .vArr [.vObj
     [("condition", .vObj [("x", .vObj [("equals", .vStr "y")])]),
      ("decision", .vStr "AUTO_REPLACE")]]),
   ("default_decision", .vStr "NEEDS_APPROVAL")]

/-- The JSON text of a null-`alert_type` model reply. -/
def llmNullInner : String := "\x7b\"alert_type\":null\x7d"

/-- A witness library whose JSON parser knows the three strings the C2
scenario needs. -/
def witLlmLib : JsLib :=
  ⟨fun _ => true, fun _ _ => none, fun _ => true, fun _ _ => false,
   fun _ _ s => some s,
   fun s =>
     if s == "tags-body" then
       .ok (.vObj [("models", .vArr [.vObj [("name", .vStr "llama3.1:latest")]])])
     else if s == "chat-body" then
       .ok (.vObj [("message", .vObj [("content", .vStr llmNullInner)])])
     else if s == llmNullInner then
       .ok (.vObj [("alert_type", .vNull)])
     else .error "unexpected JSON",
   fun _ => .vNaN, defaultToStr, fun _ => "x"⟩

/-- A backend whose single model replies with `alert_type: null`. -/
def witLlmEnvNull : LlmEnv :=
  ⟨"http://localhost:11434", "llama3.1", .resp true 200 "tags-body",
   fun _ => .resp true 200 "chat-body"⟩

/-- Is the alert type denylisted by the configuration? -/
def denylisted (cfg : ParseConfig) (v : Value) : Bool :=
  (cfg.disableScalingIntent && eqStr v "scaling_intent_detected") ||
  (cfg.disableAddMemory && eqStr v "add_memory_to_vm")

/-- A pattern-matching policy for the denylisted scaling alert type. -/
def witScalingPolicy : Value := .vObj
  [("alert_type", .vStr "scaling_intent_detected"),
   ("patterns", .vArr [.vObj [("type", .vStr "regex"), ("pattern", .vStr "disk")]]),
   ("extraction_rules", .vObj witER)]

/-- Extraction rules for the witness `add_memory_to_vm` policy. -/
def witAmER : Obj :=
  [("alert_type", .vStr "add_memory_to_vm"),
   ("project_id", .vNull), ("instance_name", .vNull), ("policy_name", .vNull),
   ("condition_name", .vNull), ("violation_started_raw", .vNull),
   ("gcp_alert_url", .vNull)]

/-- A pattern-matching `add_memory_to_vm` policy without machine-type
extraction. -/
def witAmPolicy : Value := .vObj
  [("alert_type", .vStr "add_memory_to_vm"),
   ("patterns", .vArr [.vObj [("type", .vStr "regex"), ("pattern", .vStr "memo")]]),
   ("extraction_rules", .vObj witAmER)]

/-- The complete record the witness model reply carries. -/
def witAmLlm : Obj :=
  [("alert_type", .vStr "add_memory_to_vm"),
   ("project_id", .vNull), ("instance_name", .vNull),
   ("metric_labels", .vObj []), ("policy_name", .vNull),
   ("condition_name", .vNull), ("violation_started_raw", .vNull),
   ("gcp_alert_url", .vNull), ("confidence", .vNum (9/10)),
   ("missing_fields", .vArr []), ("parse_method", .vStr "llm"),
   ("service_name", .vStr "api"),
   ("current_machine_type", .vStr "c2d-standard-2"),
   ("target_machine_type", .vStr "c2d-standard-4")]

/-- A witness library for the C3 scenario: every regex matches, and the
JSON parser knows the health body, the chat envelope and the model
record. -/
def witC3Lib : JsLib :=
  ⟨fun _ => true, fun _ _ => some [some "m"], fun _ => true, fun _ _ => false,
   fun _ _ s => some s,
   fun s =>
     if s == "tags-body" then
       .ok (.vObj [("models", .vArr [.vObj [("name", .vStr "llama3.1:latest")]])])
     else if s == "chat-body" then
       .ok (.vObj [("message", .vObj [("content", .vStr "AMJSON")])])
     else if s == "AMJSON" then
       .ok (.vObj witAmLlm)
     else .error "unexpected JSON",
   fun _ => .vNaN, defaultToStr, fun _ => "x"⟩

/-- The record the witness policy produces before fall-through. -/
def witAmParsed : Obj :=
  witAmER ++ [("threshold_percent", .vNull), ("value_percent", .vNull),
    ("metric_labels", .vObj []), ("missing_fields", .vArr []),
    ("confidence", .vNum (7/10)), ("parse_method", .vStr "policy")]

/-! ## Token-structured templates (spec-side view of the plain
substitution loop) -/

inductive Tok where
  | lit (s : String)
  | ph (k : String)

def renderTok : Tok → String
  | .lit s => s
  | .ph k => "\x7b" ++ k ++ "\x7d"

def renderToks (toks : List Tok) : String :=
  ⟨toks.foldr (fun t acc => (renderTok t).toList ++ acc) []⟩

def substTok (lib : JsLib) (parsed : Obj) : Tok → Tok
  | .lit s => .lit s
  | .ph k =>
    match parsed.find? (fun kv => kv.1 == k) with
    | some kv => if jsNullish kv.2 then .ph k else .lit (lib.toStr kv.2)
    | none => .ph k

def replacePh (k : String) (rep : String) : Tok → Tok
  | .lit s => .lit s
  | .ph q => if q == k then .lit rep else .ph q

def braceFree (s : String) : Bool :=
  s.toList.all (fun c => (c != '\x7b') && (c != '\x7d'))

def dollarFree (s : String) : Bool :=
  s.toList.all (fun c => c != '$')

def wellFormedToks (toks : List Tok) : Bool :=
  toks.all (fun t =>
    match t with
    | .lit s => braceFree s
    | .ph k => regexLiteralKey k)

def tokChars (toks : List Tok) : List Char :=
  toks.foldr (fun t acc => (renderTok t).toList ++ acc) []

def applyAll (lib : JsLib) (parsed : Obj) (toks : List Tok) : List Tok :=
  parsed.foldl (fun ts kv =>
    if jsNullish kv.2 then ts else ts.map (replacePh kv.1 (lib.toStr kv.2))) toks

/-- A witness library for the formatter: total regex engine, string
coercion by the JavaScript rules. -/
def witC9Lib : JsLib :=
  ⟨fun _ => true, fun _ _ => none, fun _ => true, fun _ _ => false,
   fun _ _ s => some s, fun _ => .error "no parse", fun _ => .vNaN,
   defaultToStr, fun _ => "x"⟩

def witC9Parsed : Obj :=
  [("service_name", .vStr "drb"), ("current_machine_type", .vNull)]

def witC9Toks : List Tok :=
  [.lit "VM ", .ph "service_name", .lit " now ", .ph "current_machine_type"]

def renderedOption (lib : JsLib) (mcp : McpEnv) (policy : Value) (parsed : Obj)
    (at_ : Value) : Option ActionOption :=
  match renderActionOption lib mcp policy parsed at_ with
  | .ok o => o
  | .error _ => none

/-- A formatter witness library for C10 (total regex engine, JavaScript
string coercion). -/
def witC10Lib : JsLib :=
  ⟨fun _ => true, fun _ _ => none, fun _ => true, fun _ _ => false,
   fun _ _ s => some s, fun _ => .error "no parse", fun _ => .vNaN,
   defaultToStr, fun _ => "x"⟩

def witC10PolicyS : Value := .vObj
  [("alert_type", .vStr "scaling_schedule"),
   ("action_templates", .vArr [.vObj
      [("label", .vStr "Schedule"),
       ("template", .vStr "MCP:generate_scaling_schedule_yaml_diff")]])]

def witC10ParsedS : Obj :=
  [("schedule", .vStr "30 17 4 02 * 2026"), ("duration", .vStr "7200"),
   ("ticket_number", .vStr "T-1")]

/-- An MCP environment whose script read fails. -/
def witC10McpBad : McpEnv :=
  ⟨fun _ => .threw "x", fun _ => .threw "x", .error "ENOENT", 0⟩

def witC10T1 : Value := .vObj
  [("label", .vStr "Terragrunt"),
   ("template", .vStr "MCP:generate_terragrunt_autoscaler_diff")]

def witC10T2 : Value := .vObj
  [("label", .vStr "Plain"),
   ("template", .vStr "Scale \x7bservice_name\x7d")]

def witC10Policy : Value := .vObj
  [("alert_type", .vStr "memory_upgrade"),
   ("action_templates", .vArr [witC10T1, witC10T2])]

def witC10Parsed : Obj := [("service_name", .vStr "drb")]

/-- An MCP environment whose terragrunt tool throws. -/
def witC10Mcp : McpEnv :=
  ⟨fun _ => .threw "boom", fun _ => .threw "boom", .ok "s", 0⟩

/-- The per-template renderings of the witness policy. -/
def witC10Options : List ActionOption :=
  [witC10T1, witC10T2].filterMap
    (renderedOption witC10Lib witC10Mcp witC10Policy witC10Parsed)

/-- The report the claim theorem yields at the witness inputs. -/
def witC10Report : Report :=
  let actionList := witC10Options
  let actionOptionsV := if actionList.length > 0
    then Value.vStr (joinActionOptions witC10Lib actionList) else Value.vNull
  let firstAction := match actionList.head? with
    | some o => Value.vStr o.action
    | none => Value.vUndef
  let actionV := jsOr2 actionOptionsV (jsOr2 firstAction .vNull)
  ⟨witC10Parsed, .vNull, actionV,
   (if actionList.length > 0 then some actionList else none),
   (if actionList.length > 0 then Value.vNull
    else jsOr2 actionOptionsV (jsOr2 actionV (.vStr "Approval required"))),
   witC10Policy, false, .vNull⟩

/-! ## Shared lemmas about the policy-based parser -/

theorem getFEx_of_not_nullish (v : Value) (k : String) (h : jsNullish v = false) :
    getFEx v k = .ok (getF v k) := by
  cases v <;> simp [jsNullish] at h <;> simp [getFEx]

theorem getFEx_ok_inv (v : Value) (k : String) (w : Value)
    (h : getFEx v k = .ok w) : w = getF v k := by
  cases v <;> simp [getFEx] at h <;> exact h.symm

theorem tryPolicyOne_some_inv (lib : JsLib) (text : String) (policy : Value)
    (parsed : Obj) (pol : Value)
    (h : tryPolicyOne lib text policy = .ok (some (parsed, pol))) :
    pol = policy ∧ jsTruthy (getF policy "patterns") = true ∧
      jsStrictEq (lengthOf (getF policy "patterns")) (.vNum 0) = false := by
  unfold tryPolicyOne at h
  cases hg : getFEx policy "patterns" with
  | error e => rw [hg] at h; simp [Bind.bind, Except.bind] at h
  | ok pats =>
    have hp := getFEx_ok_inv policy "patterns" pats hg
    subst hp
    rw [hg] at h
    simp only [Bind.bind, Except.bind] at h
    split at h
    · simp at h
    · rename_i hcond
      split at h
      · simp at h
      · cases hie : iterElems (getF policy "patterns") with
        | error e => rw [hie] at h; simp at h
        | ok elems =>
          rw [hie] at h
          simp only [Except.bind] at h
          cases hfm : firstPatternMatch lib text elems with
          | error e => rw [hfm] at h; simp at h
          | ok r =>
            rw [hfm] at h
            cases r with
            | none => simp at h
            | some extracted =>
              simp only at h
              cases hbp : buildPolicyParsed policy extracted with
              | error e => rw [hbp] at h; simp [Except.bind] at h
              | ok merged =>
                rw [hbp] at h
                simp only [Except.bind] at h
                cases hv : validateParsedAlert merged with
                | error e => rw [hv] at h; simp [Except.bind] at h
                | ok validated =>
                  rw [hv] at h
                  simp only [Except.bind] at h
                  injection h with h1
                  injection h1 with h2
                  obtain ⟨-, h4⟩ := Prod.mk.injEq .. ▸ h2
                  constructor
                  · exact h4.symm ▸ rfl
                  · constructor
                    · by_contra hc
                      apply hcond
                      simp at hc
                      simp [hc]
                    · by_contra hc
                      apply hcond
                      simp at hc
                      simp [hc]

theorem tryPolicyParsing_cons_none (lib : JsLib) (text : String) (policy : Value)
    (rest : List Value) (h : tryPolicyOne lib text policy = .ok none) :
    tryPolicyParsing lib (policy :: rest) text = tryPolicyParsing lib rest text := by
  simp [tryPolicyParsing, h, Bind.bind, Except.bind]

theorem tryPolicyParsing_skip_all (lib : JsLib) (text : String) (prevs l : List Value)
    (h : ∀ q ∈ prevs, tryPolicyOne lib text q = .ok none) :
    tryPolicyParsing lib (prevs ++ l) text = tryPolicyParsing lib l text := by
  induction prevs with
  | nil => rfl
  | cons q qs ih =>
    rw [List.cons_append, tryPolicyParsing_cons_none lib text q (qs ++ l)
      (h q (List.mem_cons_self q qs))]
    exact ih (fun r hr => h r (List.mem_cons_of_mem q hr))

theorem firstPatternMatch_first_wins (lib : JsLib) (text : String)
    (pre post : List Value) (p : Value) (extracted : Obj)
    (hpre : ∀ q ∈ pre, applyPattern lib q text = .ok none)
    (hp : applyPattern lib p text = .ok (some extracted)) :
    firstPatternMatch lib text (pre ++ p :: post) = .ok (some extracted) := by
  induction pre with
  | nil => simp [firstPatternMatch, hp, Bind.bind, Except.bind]
  | cons q qs ih =>
    have hq := hpre q (List.mem_cons_self q qs)
    simp only [List.cons_append, firstPatternMatch, hq, Bind.bind, Except.bind]
    exact ih (fun r hr => hpre r (List.mem_cons_of_mem q hr))

theorem tryPolicyOne_first_pattern (lib : JsLib) (text : String) (policy : Value)
    (pre post : List Value) (p : Value) (extracted : Obj)
    (hpats : getFEx policy "patterns" = .ok (.vArr (pre ++ p :: post)))
    (hguard : (eqStr (getF policy "alert_type") "add_memory_to_vm" &&
      (strContainsCI text "disk" || strContainsCI text "storage") &&
      !(strContainsCI text "memory" || strContainsCI text "ram")) = false)
    (hpre : ∀ q ∈ pre, applyPattern lib q text = .ok none)
    (hp : applyPattern lib p text = .ok (some extracted)) :
    tryPolicyOne lib text policy =
      (do
        let merged ← buildPolicyParsed policy extracted
        let validated ← validateParsedAlert merged
        Except.ok (some (validated, policy))) := by
  unfold tryPolicyOne
  rw [hpats]
  simp only [Bind.bind, Except.bind]
  have hlen : jsStrictEq (lengthOf (.vArr (pre ++ p :: post))) (.vNum 0) = false := by
    simp only [lengthOf, jsStrictEq]
    simp
    intro hc
    have h1 : (0 : ℚ) ≤ (pre.length : ℚ) := Nat.cast_nonneg _
    have h2 : (0 : ℚ) ≤ (post.length : ℚ) := Nat.cast_nonneg _
    linarith
  simp only [jsTruthy, hlen, Bool.not_true, Bool.false_or, Bool.or_false]
  rw [hguard]
  simp only [iterElems, Except.bind]
  rw [firstPatternMatch_first_wins lib text pre post p extracted hpre hp]
  simp

theorem tryPolicyOne_zero_pattern (lib : JsLib) (text : String) (policy : Value)
    (h1 : jsNullish policy = false)
    (h2 : jsTruthy (getF policy "patterns") = false ∨
      jsStrictEq (lengthOf (getF policy "patterns")) (.vNum 0) = true) :
    tryPolicyOne lib text policy = .ok none := by
  unfold tryPolicyOne
  rw [getFEx_of_not_nullish policy "patterns" h1]
  simp only [Bind.bind, Except.bind]
  rcases h2 with h | h <;> simp [h]

/-! ## Claims C6 and C7 -/

/-- C7: for every text, a policy whose patterns list is absent or empty is
never selected by the policy-based parser — every matched result's policy
has a truthy, non-zero-length patterns list, and a zero-pattern policy at
the head of the list is skipped, continuing with the remaining policies. -/
theorem C7_zero_pattern_policy_never_selected :
    (∀ (lib : JsLib) (policies : List Value) (text : String) (parsed : Obj)
        (policy : Value),
      tryPolicyParsing lib policies text = .ok (some (parsed, policy)) →
      jsTruthy (getF policy "patterns") = true ∧
        jsStrictEq (lengthOf (getF policy "patterns")) (.vNum 0) = false) ∧
    (∀ (lib : JsLib) (policy : Value) (rest : List Value) (text : String),
      jsNullish policy = false →
      (jsTruthy (getF policy "patterns") = false ∨
        jsStrictEq (lengthOf (getF policy "patterns")) (.vNum 0) = true) →
      tryPolicyParsing lib (policy :: rest) text = tryPolicyParsing lib rest text) := by
  constructor
  · intro lib policies text parsed policy h
    induction policies with
    | nil => simp [tryPolicyParsing] at h
    | cons q qs ih =>
      unfold tryPolicyParsing at h
      cases ho : tryPolicyOne lib text q with
      | error e => rw [ho] at h; simp [Bind.bind, Except.bind] at h
      | ok r =>
        rw [ho] at h
        simp only [Bind.bind, Except.bind] at h
        cases r with
        | some pr =>
          simp only at h
          injection h with h1
          injection h1 with h2
          obtain ⟨hq, h1c, h2c⟩ := tryPolicyOne_some_inv lib text q parsed policy
            (by rw [ho, h2])
          rw [hq]
          exact ⟨h1c, h2c⟩
        | none => exact ih h
  · intro lib policy rest text h1 h2
    exact tryPolicyParsing_cons_none lib text policy rest
      (tryPolicyOne_zero_pattern lib text policy h1 h2)

/-- Witness for C7: a concrete matched run satisfies the patterns
conditions, and a concrete zero-pattern head policy is skipped. -/
theorem C7_witness :
    (jsTruthy (getF witPolicy "patterns") = true ∧
      jsStrictEq (lengthOf (getF witPolicy "patterns")) (.vNum 0) = false) ∧
    tryPolicyParsing witLib [zeroPatPolicy, witPolicy] "disk low" =
      tryPolicyParsing witLib [witPolicy] "disk low" := by
  constructor
  · exact C7_zero_pattern_policy_never_selected.1 witLib [witPolicy] "disk low"
      witParsed witPolicy rfl
  · exact C7_zero_pattern_policy_never_selected.2 witLib zeroPatPolicy [witPolicy]
      "disk low" rfl (Or.inl rfl)

/-- C6: within a single policy the patterns are alternatives — for every
text and policy, with any earlier policies not matching, the first
pattern in declaration order that matches determines the extracted
fields handed to the merge, the remaining patterns (arbitrary, untried)
do not influence the result, and a single match suffices for the policy
to match. -/
theorem C6_first_pattern_wins
    (lib : JsLib) (prevs : List Value) (policy : Value) (restPolicies : List Value)
    (text : String) (pre post : List Value) (p : Value) (extracted : Obj)
    (hprevs : ∀ q ∈ prevs, tryPolicyOne lib text q = .ok none)
    (hpats : getFEx policy "patterns" = .ok (.vArr (pre ++ p :: post)))
    (hguard : (eqStr (getF policy "alert_type") "add_memory_to_vm" &&
      (strContainsCI text "disk" || strContainsCI text "storage") &&
      !(strContainsCI text "memory" || strContainsCI text "ram")) = false)
    (hpre : ∀ q ∈ pre, applyPattern lib q text = .ok none)
    (hp : applyPattern lib p text = .ok (some extracted)) :
    tryPolicyParsing lib (prevs ++ policy :: restPolicies) text =
      (do
        let merged ← buildPolicyParsed policy extracted
        let validated ← validateParsedAlert merged
        Except.ok (some (validated, policy))) := by
  rw [tryPolicyParsing_skip_all lib text prevs _ hprevs]
  unfold tryPolicyParsing
  rw [tryPolicyOne_first_pattern lib text policy pre post p extracted hpats hguard hpre hp]
  cases hbp : buildPolicyParsed policy extracted with
  | error e => simp [Bind.bind, Except.bind, hbp]
  | ok merged =>
    cases hv : validateParsedAlert merged with
    | error e => simp [Bind.bind, Except.bind, hbp, hv]
    | ok validated => simp [Bind.bind, Except.bind, hbp, hv]

/-- Witness for C6: with a failing first alternative, a matching second
pattern and a junk third pattern, the policy matches with the second
pattern's (empty) extraction. -/
theorem C6_witness :
    tryPolicyParsing witLibDiskOnly [zeroPatPolicy, witPolicyTwoPatterns] "disk low" =
      (do
        let merged ← buildPolicyParsed witPolicyTwoPatterns []
        let validated ← validateParsedAlert merged
        Except.ok (some (validated, witPolicyTwoPatterns))) := by
  exact C6_first_pattern_wins witLibDiskOnly [zeroPatPolicy] witPolicyTwoPatterns []
    "disk low" [witFailPattern]
    [Value.vStr "junk"] (.vObj [("type", .vStr "regex"), ("pattern", .vStr "disk")]) []
    (fun q hq => by
      rw [List.mem_singleton] at hq
      subst hq
      rfl)
    rfl rfl
    (fun q hq => by
      rw [List.mem_singleton] at hq
      subst hq
      rfl)
    rfl

/-! ## Claim C5 -/

/-- Counterexample to C5: a policy set containing a pattern with an
invalid regular expression loads without any failure — the failure is
raised only later, when the pattern is applied to a text. -/
theorem C5_counterexample :
    loadPolicies cexLib ⟨.content "policies-file"⟩ none =
      .ok ([badPolicy], some [badPolicy]) ∧
    applyPattern cexLib badPattern "any text" =
      .error "SyntaxError: invalid regular expression" :=
  ⟨rfl, rfl⟩

/-- C5 (amended): loading a policy set never consults the regex engine —
its outcome depends only on the JSON parse — so an invalid pattern
expression cannot fail the load; the failure is raised at match time,
when `applyPattern` compiles the expression. -/
theorem C5_invalid_pattern_fails_at_match_time :
    (∀ (lib lib' : JsLib) (fs : FsEnv) (cache : Option (List Value)),
      lib.jsonParse = lib'.jsonParse →
      loadPolicies lib fs cache = loadPolicies lib' fs cache) ∧
    (∀ (lib : JsLib) (pattern : Value) (text : String),
      jsNullish pattern = false →
      eqStr (getF pattern "type") "regex" = true →
      lib.regexCompileI (regexArgStr lib (getF pattern "pattern")) = false →
      applyPattern lib pattern text =
        .error "SyntaxError: invalid regular expression") := by
  constructor
  · intro lib lib' fs cache h
    unfold loadPolicies
    cases cache with
    | some c => rfl
    | none =>
      cases fs.read with
      | missing => rfl
      | content s => rw [h]
  · intro lib pattern text h1 h2 h3
    unfold applyPattern
    rw [getFEx_of_not_nullish pattern "type" h1]
    simp only [Bind.bind, Except.bind, h2, if_true, h3]
    simp

/-- Witness for C5 (amended): the invalid-pattern policy file loads
identically under a rejecting and an accepting regex engine, and the
invalid pattern itself throws when applied. -/
theorem C5_witness :
    loadPolicies cexLib ⟨.content "policies-file"⟩ none =
      loadPolicies cexLibAcceptAll ⟨.content "policies-file"⟩ none ∧
    applyPattern cexLib badPattern "any text" =
      .error "SyntaxError: invalid regular expression" := by
  constructor
  · exact C5_invalid_pattern_fails_at_match_time.1 cexLib cexLibAcceptAll
      ⟨.content "policies-file"⟩ none rfl
  · exact C5_invalid_pattern_fails_at_match_time.2 cexLib badPattern "any text"
      rfl rfl rfl

/-! ## Claim C8 -/

/-- Counterexample to C8: with a populated cache and a failing load,
`reloadPolicies` raises and leaves the cache empty — the previously
cached set is lost, so the cache holds neither the complete previous set
nor a newly loaded one. -/
theorem C8_counterexample :
    (reloadPolicies witLib ⟨.missing⟩ (some [witPolicy])).1 =
      .error "Policies file not found" ∧
    (reloadPolicies witLib ⟨.missing⟩ (some [witPolicy])).2 = none ∧
    (reloadPolicies witLib ⟨.missing⟩ (some [witPolicy])).2 ≠ some [witPolicy] :=
  ⟨rfl, rfl, by simp [reloadPolicies, loadPolicies]⟩

theorem loadPolicies_none_ok_inv (lib : JsLib) (fs : FsEnv) (ps : List Value)
    (c : Option (List Value)) (h : loadPolicies lib fs none = .ok (ps, c)) :
    c = some ps := by
  simp only [loadPolicies] at h
  split at h
  · simp at h
  · split at h
    · simp at h
    · rename_i data _
      cases hg : getFEx data "policies" with
      | error e => rw [hg] at h; simp [Bind.bind, Except.bind] at h
      | ok pv =>
        rw [hg] at h
        simp only [Bind.bind, Except.bind] at h
        cases pv <;> simp at h
        obtain ⟨h1, h2⟩ := h
        rw [← h2, h1]

/-- C8 (amended): `reloadPolicies` performs a construct-then-swap whole
replace that ignores the previous cache: on success the cache afterwards
is exactly the complete newly loaded set; on failure the error propagates
and the cache afterwards is empty — never a partial mixture, but also
never the previous set (which the claim wrongly said is retained on
failure). -/
theorem C8_reload_atomic_replace :
    ∀ (lib : JsLib) (fs : FsEnv) (cache : Option (List Value)),
      (reloadPolicies lib fs cache = reloadPolicies lib fs none) ∧
      ((∃ ps, (reloadPolicies lib fs cache).1 = .ok ps ∧
          (reloadPolicies lib fs cache).2 = some ps) ∨
        ((∃ e, (reloadPolicies lib fs cache).1 = .error e) ∧
          (reloadPolicies lib fs cache).2 = none)) := by
  intro lib fs cache
  constructor
  · rfl
  · unfold reloadPolicies
    cases h : loadPolicies lib fs none with
    | error e => exact Or.inr ⟨⟨e, rfl⟩, rfl⟩
    | ok pc =>
      obtain ⟨ps, c⟩ := pc
      have := loadPolicies_none_ok_inv lib fs ps c h
      subst this
      exact Or.inl ⟨ps, rfl, rfl⟩

/-! ## Claim C4 -/

theorem evalFieldCondition_total (lib : JsLib) (parsed : Obj) (field : String)
    (fc : Value) (h : fieldCondRegexOk lib fc = true) :
    ∃ b, evalFieldCondition lib parsed field fc = .ok b := by
  unfold evalFieldCondition
  split
  · exact ⟨_, rfl⟩
  · split
    all_goals try exact ⟨_, rfl⟩
    all_goals
      dsimp only
      split
      · exact ⟨_, rfl⟩
      · split
        · exact ⟨_, rfl⟩
        · split
          · exact ⟨_, rfl⟩
          · split
            · rename_i hmt
              simp [fieldCondRegexOk, isObjLike, hmt] at h
              simp only [h, if_true]
              exact ⟨_, rfl⟩
            · exact ⟨_, rfl⟩

theorem evaluateConditionGo_total (lib : JsLib) (parsed : Obj)
    (entries : List (String × Value))
    (h : entries.all (fun kv => fieldCondRegexOk lib kv.2) = true) :
    ∃ b, evaluateCondition.go lib parsed entries = .ok b := by
  induction entries with
  | nil => exact ⟨true, rfl⟩
  | cons kv rest ih =>
    rw [List.all_cons, Bool.and_eq_true] at h
    obtain ⟨b1, hb1⟩ := evalFieldCondition_total lib parsed kv.1 kv.2 h.1
    obtain ⟨b2, hb2⟩ := ih h.2
    cases b1 with
    | true =>
      exact ⟨b2, by simp [evaluateCondition.go, hb1, hb2, Bind.bind, Except.bind]⟩
    | false =>
      exact ⟨false, by simp [evaluateCondition.go, hb1, Bind.bind, Except.bind]⟩

theorem evaluateCondition_total (lib : JsLib) (cond : Value) (parsed : Obj)
    (h : (entriesOf cond).all (fun kv => fieldCondRegexOk lib kv.2) = true) :
    ∃ b, evaluateCondition lib cond parsed = .ok b := by
  unfold evaluateCondition
  split
  · exact ⟨_, rfl⟩
  · split
    · rename_i fs hneg
      exact evaluateConditionGo_total lib parsed fs (by simpa [entriesOf] using h)
    · rename_i xs hneg
      exact evaluateConditionGo_total lib parsed (entriesOf (.vArr xs)) h
    · exact ⟨_, rfl⟩

theorem decideFirstRule_total (lib : JsLib) (parsed : Obj) (rs : List Value)
    (h : rs.all (ruleWellFormed lib) = true) :
    (∃ d, decide.firstRule lib parsed rs = .ok (some d) ∧ isDecisionStr d = true) ∨
      decide.firstRule lib parsed rs = .ok none := by
  induction rs with
  | nil => exact Or.inr rfl
  | cons rule rest ih =>
    rw [List.all_cons, Bool.and_eq_true] at h
    have hrw := h.1
    rw [ruleWellFormed, Bool.and_eq_true] at hrw
    obtain ⟨b, hb⟩ := evaluateCondition_total lib (getF rule "condition") parsed hrw.2
    cases b with
    | true =>
      exact Or.inl ⟨getF rule "decision",
        by simp [decide.firstRule, hb, Bind.bind, Except.bind], hrw.1⟩
    | false =>
      rcases ih h.2 with ⟨d, hd, hds⟩ | hnone
      · exact Or.inl ⟨d, by simp [decide.firstRule, hb, Bind.bind, Except.bind, hd], hds⟩
      · exact Or.inr (by simp [decide.firstRule, hb, Bind.bind, Except.bind, hnone])

theorem decide_default_case (policy : Value)
    (h2 : (!jsTruthy (getF policy "default_decision") ||
      isDecisionStr (getF policy "default_decision")) = true) :
    ∃ d, (if jsTruthy (getF policy "default_decision") = true
        then Except.ok [("decision", getF policy "default_decision")]
        else Except.ok [("decision", Value.vStr "NO_ACTION")]) =
      (.ok [("decision", d)] : Except String Obj) ∧ isDecisionStr d = true := by
  by_cases hdd : jsTruthy (getF policy "default_decision") = true
  · refine ⟨getF policy "default_decision", by simp [hdd], ?_⟩
    rcases (Bool.or_eq_true _ _).mp h2 with hx | hx
    · simp [hdd] at hx
    · exact hx
  · have hdd' : jsTruthy (getF policy "default_decision") = false := by simpa using hdd
    exact ⟨.vStr "NO_ACTION", by simp [hdd'], rfl⟩

/-- C4 (amended): for every parsed record and every decision-well-formed
policy (including a null one) — every rule decision drawn from the three
decision strings, a truthy default decision likewise, and every reachable
`matches` expression a valid regex — `decide` terminates without
throwing and returns exactly one of AUTO_REPLACE, NEEDS_APPROVAL or
NO_ACTION.  (Unrestricted policies refute the original claim: see the
counterexample.) -/
theorem C4_decide_total_wellformed (lib : JsLib) (parsed : Obj) (policy : Value)
    (h : policyDecisionsWellFormed lib policy = true) :
    ∃ d, decide lib parsed policy = .ok [("decision", d)] ∧ isDecisionStr d = true := by
  rw [policyDecisionsWellFormed, Bool.and_eq_true] at h
  unfold decide
  split
  · exact ⟨.vStr "NO_ACTION", rfl, rfl⟩
  · cases hr : getF policy "decision_rules" with
    | vArr rs =>
      have hall : rs.all (ruleWellFormed lib) = true := by
        have h1 := h.1
        rw [hr] at h1
        exact h1
      rcases decideFirstRule_total lib parsed rs hall with ⟨d, hd, hds⟩ | hnone
      · exact ⟨d, by simp [hr, hd, Bind.bind, Except.bind], hds⟩
      · obtain ⟨d, hdefault, hds⟩ := decide_default_case policy h.2
        refine ⟨d, ?_, hds⟩
        simp only [hr, hnone, Bind.bind, Except.bind]
        exact hdefault
    | vNull =>
      obtain ⟨d, hdefault, hds⟩ := decide_default_case policy h.2
      refine ⟨d, ?_, hds⟩
      simp only [hr, Bind.bind, Except.bind, Pure.pure, Except.pure]
      exact hdefault
    | vUndef =>
      obtain ⟨d, hdefault, hds⟩ := decide_default_case policy h.2
      refine ⟨d, ?_, hds⟩
      simp only [hr, Bind.bind, Except.bind, Pure.pure, Except.pure]
      exact hdefault
    | vNaN =>
      obtain ⟨d, hdefault, hds⟩ := decide_default_case policy h.2
      refine ⟨d, ?_, hds⟩
      simp only [hr, Bind.bind, Except.bind, Pure.pure, Except.pure]
      exact hdefault
    | vBool b =>
      obtain ⟨d, hdefault, hds⟩ := decide_default_case policy h.2
      refine ⟨d, ?_, hds⟩
      simp only [hr, Bind.bind, Except.bind, Pure.pure, Except.pure]
      exact hdefault
    | vNum q =>
      obtain ⟨d, hdefault, hds⟩ := decide_default_case policy h.2
      refine ⟨d, ?_, hds⟩
      simp only [hr, Bind.bind, Except.bind, Pure.pure, Except.pure]
      exact hdefault
    | vStr s =>
      obtain ⟨d, hdefault, hds⟩ := decide_default_case policy h.2
      refine ⟨d, ?_, hds⟩
      simp only [hr, Bind.bind, Except.bind, Pure.pure, Except.pure]
      exact hdefault
    | vObj fs =>
      obtain ⟨d, hdefault, hds⟩ := decide_default_case policy h.2
      refine ⟨d, ?_, hds⟩
      simp only [hr, Bind.bind, Except.bind, Pure.pure, Except.pure]
      exact hdefault

/-- Counterexample to C4 as stated: for an arbitrary policy, `decide` can
return a value outside the three decisions (an empty condition always
matches and the rule's decision string is passed through verbatim), and
it can throw (an invalid `matches` regex raises at decide time). -/
theorem C4_counterexample :
    decide witLib [] cexPolicyBadDecision = .ok [("decision", .vStr "SOMETHING_ELSE")] ∧
    isDecisionStr (.vStr "SOMETHING_ELSE") = false ∧
    decide cexLib [] cexPolicyBadRegex = .error "SyntaxError: invalid regular expression" :=
  ⟨rfl, rfl, rfl⟩

/-- Witness for C4 (amended): a concrete well-formed policy yields one of
the three decisions. -/
theorem C4_witness :
    ∃ d, decide witLib [] witDecidePolicy = .ok [("decision", d)] ∧
      isDecisionStr d = true :=
  C4_decide_total_wellformed witLib [] witDecidePolicy rfl

/-! ## Claim C2 -/

theorem tryLLMWithModel_null_terminal (lib : JsLib) (env : LlmEnv) (model : String)
    (status : Nat) (body : String) (data : Value) (s0 : String) (parsed : Value)
    (hc : env.chat model = .resp true status body)
    (hd : lib.jsonParse body = .ok data)
    (hcontent : getF (getF data "message") "content" = .vStr s0)
    (hs0 : s0 ≠ "")
    (hparsed : lib.jsonParse (cleanLlmContent s0) = .ok parsed)
    (hnotnull : parsed ≠ .vNull)
    (hnull : jsNullish (getF parsed "alert_type") = true) :
    tryLLMWithModel lib env model = .ok .notMatched := by
  unfold tryLLMWithModel
  rw [hc]
  simp only [Bool.not_true, Bool.false_eq_true, if_false]
  rw [hd]
  simp only [hcontent]
  have hst : jsTruthy (Value.vStr s0) = true := by
    simp [jsTruthy, hs0]
  simp only [hst, if_true, Bool.not_true, Bool.false_eq_true, if_false]
  rw [hparsed]
  cases parsed with
  | vNull => exact absurd rfl hnotnull
  | vUndef => simp_all
  | vNaN => simp_all
  | vBool b => simp_all
  | vNum q => simp_all
  | vStr s => simp_all
  | vArr xs => simp_all
  | vObj fs => simp_all

theorem llmCascade_null_terminal (lib : JsLib) (env : LlmEnv) (policies : List Value)
    (model : String) (pre post : List String)
    (hpre : ∀ m ∈ pre, (∃ e, tryLLMWithModel lib env m = .ok (.retry e)) ∨
      (∃ e, tryLLMWithModel lib env m = .error e))
    (hm : tryLLMWithModel lib env model = .ok .notMatched) :
    ∀ errors, llmCascade lib env policies errors (pre ++ model :: post) =
      .ok ⟨false, none, none, none, none⟩ := by
  induction pre with
  | nil =>
    intro errors
    simp only [List.nil_append, llmCascade, hm]
  | cons m ms ih =>
    intro errors
    rcases hpre m (List.mem_cons_self m ms) with ⟨e, he⟩ | ⟨e, he⟩ <;>
      simp only [List.cons_append, llmCascade, he] <;>
      exact ih (fun q hq => hpre q (List.mem_cons_of_mem m hq)) _

/-- C2: in the model cascade, a model whose reply parses to JSON with a
nullish `alert_type` is an affirmative terminal negative: with any
earlier models failing retryably or throwing, `tryLLMParsing` returns
the bare not-matched result (no error field), for arbitrary remaining
models `post` and arbitrary backend behaviour on them — no further model
is tried and the outcome is not treated as a retryable error. -/
theorem C2_null_alert_type_terminal_negative
    (lib : JsLib) (env : LlmEnv) (policies : List Value)
    (hst : Nat) (hbody : String) (md : Value) (avail : List Value)
    (model : String) (pre post : List String)
    (status : Nat) (body : String) (data : Value) (s0 : String) (parsed : Value)
    (hh : env.health = .resp true hst hbody)
    (hmd : lib.jsonParse hbody = .ok md)
    (hfold : availModelsOf (getF md "models") = .ok avail)
    (havail : avail.length ≠ 0)
    (hbuild : buildModelsToTry (tagPrimary env.primaryModelRaw) avail =
      .ok (pre ++ model :: post))
    (hpre : ∀ m ∈ pre, (∃ e, tryLLMWithModel lib env m = .ok (.retry e)) ∨
      (∃ e, tryLLMWithModel lib env m = .error e))
    (hc : env.chat model = .resp true status body)
    (hd : lib.jsonParse body = .ok data)
    (hcontent : getF (getF data "message") "content" = .vStr s0)
    (hs0 : s0 ≠ "")
    (hparsed : lib.jsonParse (cleanLlmContent s0) = .ok parsed)
    (hnotnull : parsed ≠ .vNull)
    (hnull : jsNullish (getF parsed "alert_type") = true) :
    tryLLMParsing lib env policies = .ok ⟨false, none, none, none, none⟩ := by
  have hm := tryLLMWithModel_null_terminal lib env model status body data s0 parsed
    hc hd hcontent hs0 hparsed hnotnull hnull
  have hlen : (avail.length == 0) = false := by
    simpa using havail
  unfold tryLLMParsing
  simp only [hh, Bool.not_true, Bool.false_eq_true, if_false, hmd, hfold]
  unfold tryLLMAfterModels
  simp only [hlen, Bool.false_eq_true, if_false, hbuild]
  exact llmCascade_null_terminal lib env policies model pre post hpre hm []

/-- Witness for C2: the concrete null-reply backend yields the bare
not-matched result. -/
theorem C2_witness :
    tryLLMParsing witLlmLib witLlmEnvNull [] = .ok ⟨false, none, none, none, none⟩ :=
  C2_null_alert_type_terminal_negative witLlmLib witLlmEnvNull []
    200 "tags-body" (.vObj [("models", .vArr [.vObj [("name", .vStr "llama3.1:latest")]])])
    [.vStr "llama3.1:latest"]
    "llama3.1:latest" [] []
    200 "chat-body" (.vObj [("message", .vObj [("content", .vStr llmNullInner)])])
    llmNullInner (.vObj [("alert_type", .vNull)])
    rfl rfl rfl (by decide) rfl
    (fun m hm => absurd hm (List.not_mem_nil m))
    rfl rfl rfl (by decide) (by rfl) (fun h => nomatch h) rfl

/-! ## Claim C1 -/

theorem jsStrictEq_eqStr_congr (a b : Value) (s : String)
    (h : jsStrictEq a b = true) : eqStr a s = eqStr b s := by
  cases a <;> cases b <;> simp [jsStrictEq] at h <;> simp [eqStr, jsStrictEq, h]

theorem denylisted_congr (cfg : ParseConfig) (a b : Value)
    (h : jsStrictEq a b = true) : denylisted cfg a = denylisted cfg b := by
  unfold denylisted
  rw [jsStrictEq_eqStr_congr a b _ h, jsStrictEq_eqStr_congr a b _ h]

theorem okFalse_ne_matched {a : Option Obj} {b : Option Value} {c : Option String}
    {d : Option String} {r : ParseResult}
    (h : (Except.ok ⟨false, a, b, c, d⟩ : Except String ParseResult) = .ok r)
    (hm : r.matched = true) : False := by
  injection h with h1
  rw [← h1] at hm
  simp at hm

theorem llmCascade_matched_inv (lib : JsLib) (env : LlmEnv) (policies : List Value)
    (models : List String) (errors : List String) (r : ParseResult)
    (h : llmCascade lib env policies errors models = .ok r)
    (hm : r.matched = true) :
    ∃ lp, r.parsed = some lp ∧
      (r.policy = none ∨ ∃ P, r.policy = some P ∧
        jsStrictEq (getF P "alert_type") (getField lp "alert_type") = true) := by
  induction models generalizing errors with
  | nil =>
    simp only [llmCascade] at h
    exact (okFalse_ne_matched h hm).elim
  | cons model rest ih =>
    simp only [llmCascade] at h
    cases hstep : tryLLMWithModel lib env model with
    | error e =>
      rw [hstep] at h
      exact ih _ h
    | ok step =>
      rw [hstep] at h
      cases step with
      | matchedP parsed =>
        simp only at h
        injection h with h1
        rw [← h1] at hm ⊢
        refine ⟨parsed, rfl, ?_⟩
        cases hf : policies.find? (fun p =>
            jsStrictEq (getF p "alert_type") (getField parsed "alert_type")) with
        | none => exact Or.inl (by simp [hf])
        | some P =>
          have hp := List.find?_some hf
          exact Or.inr ⟨P, by simp [hf], hp⟩
      | notMatched =>
        exact (okFalse_ne_matched h hm).elim
      | retry err =>
        exact ih _ h

theorem tryLLMAfterModels_matched_inv (lib : JsLib) (env : LlmEnv)
    (policies : List Value) (mdE : Except String (List Value)) (r : ParseResult)
    (h : tryLLMAfterModels lib env policies mdE = .ok r) (hm : r.matched = true) :
    ∃ lp, r.parsed = some lp ∧
      (r.policy = none ∨ ∃ P, r.policy = some P ∧
        jsStrictEq (getF P "alert_type") (getField lp "alert_type") = true) := by
  cases mdE with
  | error m =>
    simp only [tryLLMAfterModels] at h
    exact (okFalse_ne_matched h hm).elim
  | ok avail =>
    simp only [tryLLMAfterModels] at h
    by_cases hlen : (avail.length == 0) = true
    · rw [if_pos hlen] at h
      exact (okFalse_ne_matched h hm).elim
    · rw [if_neg hlen] at h
      cases hb : buildModelsToTry (tagPrimary env.primaryModelRaw) avail with
      | error e =>
        rw [hb] at h
        simp at h
      | ok models =>
        rw [hb] at h
        exact llmCascade_matched_inv lib env policies models [] r h hm

theorem tryLLMParsing_matched_inv (lib : JsLib) (env : LlmEnv) (policies : List Value)
    (r : ParseResult)
    (h : tryLLMParsing lib env policies = .ok r) (hm : r.matched = true) :
    ∃ lp, r.parsed = some lp ∧
      (r.policy = none ∨ ∃ P, r.policy = some P ∧
        jsStrictEq (getF P "alert_type") (getField lp "alert_type") = true) := by
  unfold tryLLMParsing at h
  cases hh : env.health with
  | abortErr =>
    rw [hh] at h
    exact (okFalse_ne_matched h hm).elim
  | netErr m =>
    rw [hh] at h
    exact (okFalse_ne_matched h hm).elim
  | resp ok st body =>
    rw [hh] at h
    cases ok with
    | false =>
      exact (okFalse_ne_matched h hm).elim
    | true =>
      simp only [Bool.not_true, Bool.false_eq_true, if_false] at h
      cases hj : lib.jsonParse body with
      | error m =>
        rw [hj] at h
        exact (okFalse_ne_matched h hm).elim
      | ok md =>
        rw [hj] at h
        exact tryLLMAfterModels_matched_inv lib env policies
          (availModelsOf (getF md "models")) r h hm

theorem parseAlert_policy_denylist_suppressed (lib : JsLib) (cfg : ParseConfig)
    (env : LlmEnv) (policies : List Value) (text : String) (parsed : Obj)
    (policy : Value)
    (hpol : tryPolicyParsing lib policies text = .ok (some (parsed, policy)))
    (hdeny : denylisted cfg (getF policy "alert_type") = true) :
    parseAlert lib cfg env policies text = .ok ⟨false, none, none, none, none⟩ := by
  unfold parseAlert
  simp only [hpol, Bind.bind, Except.bind]
  rw [denylisted, Bool.or_eq_true] at hdeny
  by_cases h1 : (cfg.disableScalingIntent &&
      eqStr (getF policy "alert_type") "scaling_intent_detected") = true
  · simp [h1]
  · have h1f : (cfg.disableScalingIntent &&
        eqStr (getF policy "alert_type") "scaling_intent_detected") = false := by
      simpa using h1
    rcases hdeny with hd | hd
    · exact absurd hd h1
    · simp [h1f, hd]

theorem parseAlertLlmStage_denylist_suppressed (lib : JsLib) (cfg : ParseConfig)
    (env : LlmEnv) (policies : List Value) (ft : Option (Obj × Value))
    (llmRes : ParseResult) (lp : Obj)
    (hllm : tryLLMParsing lib env policies = .ok llmRes)
    (hm : llmRes.matched = true)
    (hp : llmRes.parsed = some lp)
    (hdeny : denylisted cfg (getField lp "alert_type") = true) :
    parseAlertLlmStage lib cfg env policies ft = .ok ⟨false, none, none, none, none⟩ := by
  unfold parseAlertLlmStage
  simp only [hllm, Bind.bind, Except.bind, hm, if_true, hp]
  rw [denylisted, Bool.or_eq_true] at hdeny
  by_cases h1 : (cfg.disableScalingIntent &&
      eqStr (getField lp "alert_type") "scaling_intent_detected") = true
  · simp [h1]
  · have h1f : (cfg.disableScalingIntent &&
        eqStr (getField lp "alert_type") "scaling_intent_detected") = false := by
      simpa using h1
    rcases hdeny with hd | hd
    · exact absurd hd h1
    · simp [h1f, hd]

theorem parseAlertLlmStage_policy_not_denylisted (lib : JsLib) (cfg : ParseConfig)
    (env : LlmEnv) (policies : List Value) (ft : Option (Obj × Value))
    (res : ParseResult) (P : Value)
    (h : parseAlertLlmStage lib cfg env policies ft = .ok res)
    (hm : res.matched = true)
    (hpol : res.policy = some P)
    (hft : ∀ pp pol, ft = some (pp, pol) →
      denylisted cfg (getF pol "alert_type") = false) :
    denylisted cfg (getF P "alert_type") = false := by
  unfold parseAlertLlmStage at h
  cases hllm : tryLLMParsing lib env policies with
  | error e =>
    rw [hllm] at h
    simp [Bind.bind, Except.bind] at h
  | ok llmRes =>
    rw [hllm] at h
    simp only [Bind.bind, Except.bind] at h
    by_cases hlm : llmRes.matched = true
    · obtain ⟨lp, hlp, hpolside⟩ := tryLLMParsing_matched_inv lib env policies llmRes hllm hlm
      rw [hlm] at h
      simp only [if_true, hlp] at h
      by_cases h1 : (cfg.disableScalingIntent &&
          eqStr (getField lp "alert_type") "scaling_intent_detected") = true
      · rw [h1] at h
        simp only [if_true] at h
        exact (okFalse_ne_matched h hm).elim
      · have h1f : (cfg.disableScalingIntent &&
            eqStr (getField lp "alert_type") "scaling_intent_detected") = false := by
          simpa using h1
        rw [h1f] at h
        simp only [Bool.false_eq_true, if_false] at h
        by_cases h2 : (cfg.disableAddMemory &&
            eqStr (getField lp "alert_type") "add_memory_to_vm") = true
        · rw [h2] at h
          simp only [if_true] at h
          exact (okFalse_ne_matched h hm).elim
        · have h2f : (cfg.disableAddMemory &&
              eqStr (getField lp "alert_type") "add_memory_to_vm") = false := by
            simpa using h2
          rw [h2f] at h
          simp only [Bool.false_eq_true, if_false] at h
          cases ft with
          | some pr =>
            obtain ⟨pp, pol⟩ := pr
            simp only at h
            cases hv : validateParsedAlert (setKey
                (mergeEntries (mergeObj [] (getF pol "extraction_rules")) lp)
                "parse_method" (.vStr "llm")) with
            | error e =>
              rw [hv] at h
              simp at h
            | ok validated =>
              rw [hv] at h
              simp only at h
              injection h with h1
              rw [← h1] at hpol
              simp only at hpol
              injection hpol with h2
              rw [← h2]
              exact hft pp pol rfl
          | none =>
            simp only at h
            injection h with h1
            rw [← h1] at hpol
            rcases hpolside with hnone | ⟨Q, hQ, hstrict⟩
            · rw [hnone] at hpol
              simp at hpol
            · rw [hQ] at hpol
              injection hpol with h2p
              rw [← h2p]
              rw [denylisted_congr cfg (getF Q "alert_type") (getField lp "alert_type") hstrict]
              rw [denylisted, h1f, h2f]
              rfl
    · have hlmf : llmRes.matched = false := by simpa using hlm
      rw [hlmf] at h
      simp only [Bool.false_eq_true, if_false] at h
      exact (okFalse_ne_matched h hm).elim

theorem parseAlert_no_denylisted_policy (lib : JsLib) (cfg : ParseConfig)
    (env : LlmEnv) (policies : List Value) (text : String)
    (res : ParseResult) (P : Value)
    (h : parseAlert lib cfg env policies text = .ok res)
    (hm : res.matched = true)
    (hpol : res.policy = some P) :
    denylisted cfg (getF P "alert_type") = false := by
  unfold parseAlert at h
  cases hpp : tryPolicyParsing lib policies text with
  | error e =>
    rw [hpp] at h
    simp [Bind.bind, Except.bind] at h
  | ok r0 =>
    rw [hpp] at h
    simp only [Bind.bind, Except.bind] at h
    cases r0 with
    | none =>
      exact parseAlertLlmStage_policy_not_denylisted lib cfg env policies none res P
        h hm hpol (fun pp pol hcontra => by simp at hcontra)
    | some pr =>
      obtain ⟨parsed, policy⟩ := pr
      simp only at h
      by_cases h1 : (cfg.disableScalingIntent &&
          eqStr (getF policy "alert_type") "scaling_intent_detected") = true
      · rw [h1] at h
        simp only [if_true] at h
        exact (okFalse_ne_matched h hm).elim
      · have h1f : (cfg.disableScalingIntent &&
            eqStr (getF policy "alert_type") "scaling_intent_detected") = false := by
          simpa using h1
        rw [h1f] at h
        simp only [Bool.false_eq_true, if_false] at h
        by_cases h2 : (cfg.disableAddMemory &&
            eqStr (getF policy "alert_type") "add_memory_to_vm") = true
        · rw [h2] at h
          simp only [if_true] at h
          exact (okFalse_ne_matched h hm).elim
        · have h2f : (cfg.disableAddMemory &&
              eqStr (getF policy "alert_type") "add_memory_to_vm") = false := by
            simpa using h2
          rw [h2f] at h
          simp only [Bool.false_eq_true, if_false] at h
          have hdenyP : denylisted cfg (getF policy "alert_type") = false := by
            rw [denylisted, h1f, h2f]
            rfl
          by_cases ha : eqStr (getField parsed "alert_type") "add_memory_to_vm" = true
          · rw [ha] at h
            simp only [if_true] at h
            by_cases hc : ((jsTruthy (getField parsed "service_name") ||
                  jsTruthy (getField parsed "serviceName")) &&
                (jsTruthy (getField parsed "current_machine_type") ||
                  jsTruthy (getField parsed "currentMachineType")) &&
                (jsTruthy (getField parsed "target_machine_type") ||
                  jsTruthy (getField parsed "targetMachineType"))) = true
            · rw [hc] at h
              simp only [if_true] at h
              injection h with hres
              rw [← hres] at hpol
              simp only at hpol
              injection hpol with hP
              rw [← hP]
              exact hdenyP
            · have hcf : ((jsTruthy (getField parsed "service_name") ||
                    jsTruthy (getField parsed "serviceName")) &&
                  (jsTruthy (getField parsed "current_machine_type") ||
                    jsTruthy (getField parsed "currentMachineType")) &&
                  (jsTruthy (getField parsed "target_machine_type") ||
                    jsTruthy (getField parsed "targetMachineType"))) = false := by
                simpa using hc
              rw [hcf] at h
              simp only [Bool.false_eq_true, if_false] at h
              exact parseAlertLlmStage_policy_not_denylisted lib cfg env policies
                (some (parsed, policy)) res P h hm hpol
                (fun pp pol hsome => by
                  injection hsome with hpr
                  obtain ⟨-, hpol2⟩ := Prod.mk.injEq .. ▸ hpr.symm
                  rw [hpol2]
                  exact hdenyP)
          · have haf : eqStr (getField parsed "alert_type") "add_memory_to_vm" = false := by
              simpa using ha
            rw [haf] at h
            simp only [Bool.false_eq_true, if_false] at h
            injection h with hres
            rw [← hres] at hpol
            simp only at hpol
            injection hpol with hP
            rw [← hP]
            exact hdenyP

/-- C1: the configuration denylist is enforced on both parser paths and
never leaks a denylisted match.  (i) A policy-path match whose policy's
alert type is denylisted makes `parseAlert` return not-matched; (ii) a
model-path match whose record's alert type is denylisted makes the LLM
stage return not-matched; (iii) any matched `parseAlert` result carrying
a policy has a non-denylisted policy alert type (the model path attaches
a policy only by strict alert-type equality with the record it checked). -/
theorem C1_denylist_suppression :
    (∀ (lib : JsLib) (cfg : ParseConfig) (env : LlmEnv) (policies : List Value)
        (text : String) (parsed : Obj) (policy : Value),
      tryPolicyParsing lib policies text = .ok (some (parsed, policy)) →
      denylisted cfg (getF policy "alert_type") = true →
      parseAlert lib cfg env policies text = .ok ⟨false, none, none, none, none⟩) ∧
    (∀ (lib : JsLib) (cfg : ParseConfig) (env : LlmEnv) (policies : List Value)
        (ft : Option (Obj × Value)) (llmRes : ParseResult) (lp : Obj),
      tryLLMParsing lib env policies = .ok llmRes →
      llmRes.matched = true →
      llmRes.parsed = some lp →
      denylisted cfg (getField lp "alert_type") = true →
      parseAlertLlmStage lib cfg env policies ft = .ok ⟨false, none, none, none, none⟩) ∧
    (∀ (lib : JsLib) (cfg : ParseConfig) (env : LlmEnv) (policies : List Value)
        (text : String) (res : ParseResult) (P : Value),
      parseAlert lib cfg env policies text = .ok res →
      res.matched = true →
      res.policy = some P →
      denylisted cfg (getF P "alert_type") = false) :=
  ⟨parseAlert_policy_denylist_suppressed, parseAlertLlmStage_denylist_suppressed,
   parseAlert_no_denylisted_policy⟩

/-- Witness for C1: a concrete denylisted policy match is suppressed, and
a concrete non-denylisted matched run has a non-denylisted policy. -/
theorem C1_witness :
    parseAlert witLib ⟨true, false⟩ witLlmEnvNull [witScalingPolicy] "hello" =
      .ok ⟨false, none, none, none, none⟩ ∧
    denylisted ⟨false, false⟩ (getF witPolicy "alert_type") = false := by
  constructor
  · exact C1_denylist_suppression.1 witLib ⟨true, false⟩ witLlmEnvNull
      [witScalingPolicy] "hello" witParsed witScalingPolicy rfl rfl
  · exact C1_denylist_suppression.2.2 witLib ⟨false, false⟩ witLlmEnvNull
      [witPolicy] "hello" ⟨true, some witParsed, some witPolicy, none, none⟩
      witPolicy rfl rfl rfl

/-! ## Claim C3 -/

/-- C3: a policy-matched `add_memory_to_vm` record with a missing
critical field (service name, current or target machine type, in either
naming convention) is not returned; the model parser runs on the same
text, and when it matches, the returned record is the policy's
extraction defaults overlaid with the model's fields with `parse_method`
forced to "llm", re-validated, with the originally identified policy
attached and the model name reported. -/
theorem C3_field_critical_fallthrough_merge (lib : JsLib) (cfg : ParseConfig)
    (env : LlmEnv) (policies : List Value) (text : String) (parsed : Obj)
    (policy : Value) (llmRes : ParseResult) (lp validated : Obj)
    (hcfg1 : cfg.disableScalingIntent = false)
    (hcfg2 : cfg.disableAddMemory = false)
    (hpol : tryPolicyParsing lib policies text = .ok (some (parsed, policy)))
    (hat : eqStr (getField parsed "alert_type") "add_memory_to_vm" = true)
    (hmiss : ((jsTruthy (getField parsed "service_name") ||
        jsTruthy (getField parsed "serviceName")) &&
      (jsTruthy (getField parsed "current_machine_type") ||
        jsTruthy (getField parsed "currentMachineType")) &&
      (jsTruthy (getField parsed "target_machine_type") ||
        jsTruthy (getField parsed "targetMachineType"))) = false)
    (hllm : tryLLMParsing lib env policies = .ok llmRes)
    (hm : llmRes.matched = true)
    (hp : llmRes.parsed = some lp)
    (hv : validateParsedAlert (setKey
        (mergeEntries (mergeObj [] (getF policy "extraction_rules")) lp)
        "parse_method" (.vStr "llm")) = .ok validated) :
    parseAlert lib cfg env policies text =
      .ok ⟨true, some validated, some policy, llmRes.modelUsed, none⟩ := by
  unfold parseAlert
  simp only [hpol, Bind.bind, Except.bind, hcfg1, hcfg2, Bool.false_and,
    Bool.false_eq_true, if_false, hat, if_true, hmiss]
  unfold parseAlertLlmStage
  simp only [hllm, Bind.bind, Except.bind, hm, if_true, hp, hcfg1, hcfg2,
    Bool.false_and, Bool.false_eq_true, if_false, hv]

/-- Witness for C3: the concrete fall-through scenario returns the
merged, re-validated record with the original policy attached. -/
theorem C3_witness :
    parseAlert witC3Lib ⟨false, false⟩ witLlmEnvNull [witAmPolicy]
        "add memory to vm please" =
      .ok ⟨true,
        some (setKey (mergeEntries (mergeObj [] (getF witAmPolicy "extraction_rules"))
          witAmLlm) "parse_method" (.vStr "llm")),
        some witAmPolicy, some "llama3.1:latest", none⟩ := by
  exact C3_field_critical_fallthrough_merge witC3Lib ⟨false, false⟩ witLlmEnvNull
    [witAmPolicy] "add memory to vm please"
    witAmParsed
    witAmPolicy
    ⟨true, some witAmLlm, some witAmPolicy, some "llama3.1:latest", none⟩
    witAmLlm
    (setKey (mergeEntries (mergeObj [] (getF witAmPolicy "extraction_rules"))
      witAmLlm) "parse_method" (.vStr "llm"))
    rfl rfl (by rfl) (by rfl) (by rfl) (by rfl) rfl rfl (by rfl)

/-! ## Claim C9 -/

theorem replExpand_of_dollarFree (matched bef aft : List Char) (rep : List Char)
    (h : ∀ c ∈ rep, c ≠ '$') : replExpand matched bef aft rep = rep := by
  induction rep with
  | nil => rfl
  | cons c t ih =>
    have hc : c ≠ '$' := h c (List.mem_cons_self c t)
    have ht : ∀ x ∈ t, x ≠ '$' := fun x hx => h x (List.mem_cons_of_mem c hx)
    rw [replExpand.eq_def]
    dsimp only
    rw [if_neg hc, ih ht]

theorem prefix_not_of_head_ne (p : List Char) (c : Char) (xs : List Char)
    (hp : p.head? = some '\x7b') (hc : c ≠ '\x7b') :
    p.isPrefixOf (c :: xs) = false := by
  cases p with
  | nil => simp at hp
  | cons a p2 =>
    injection hp with ha
    rw [List.isPrefixOf]
    have : (a == c) = false := by
      rw [ha]
      simp [(Ne.symm hc)]
    simp [this]

theorem go_skip_lit (pat rep : List Char) (hpat : pat.head? = some '\x7b') :
    ∀ (l rest pre : List Char) (fuel : Nat),
      (∀ c ∈ l, c ≠ '\x7b') → l.length + rest.length < fuel →
      replaceAllGo pat rep fuel pre (l ++ rest) =
        l ++ replaceAllGo pat rep (fuel - l.length) (pre ++ l) rest := by
  intro l
  induction l with
  | nil =>
    intro rest pre fuel hl hf
    simp
  | cons c l2 ih =>
    intro rest pre fuel hl hf
    cases fuel with
    | zero => omega
    | succ f =>
      have hc : c ≠ '\x7b' := hl c (List.mem_cons_self c l2)
      rw [List.cons_append, replaceAllGo.eq_def]
      dsimp only
      rw [prefix_not_of_head_ne pat c (l2 ++ rest) hpat hc]
      simp only [Bool.false_eq_true, if_false, List.cons_append]
      rw [ih rest (pre ++ [c]) f
        (fun x hx => hl x (List.mem_cons_of_mem c hx))
        (by simp only [List.length_cons] at hf; omega)]
      simp only [List.cons_append, List.append_assoc, List.singleton_append,
        List.length_cons]
      have hfe : f + 1 - (l2.length + 1) = f - l2.length := by omega
      rw [hfe]
      rfl

theorem renderToks_eq_tokChars (toks : List Tok) :
    (renderToks toks).toList = tokChars toks := rfl

theorem alnumKey_ne (c : Char) (h : (c.isAlphanum || c == '_') = true) :
    c ≠ '\x7b' ∧ c ≠ '\x7d' ∧ c ≠ '$' := by
  refine ⟨?_, ?_, ?_⟩ <;> intro hc <;> subst hc <;> simp at h

theorem regexLiteralKey_chars (k : String) (hk : regexLiteralKey k = true) :
    ∀ c ∈ k.toList, c ≠ '\x7b' ∧ c ≠ '\x7d' ∧ c ≠ '$' := by
  intro c hc
  have := (List.all_eq_true.mp hk) c hc
  exact alnumKey_ne c this

theorem key_mismatch : ∀ (kl ql rest : List Char),
    (∀ c ∈ kl, c ≠ '\x7d') → (∀ c ∈ ql, c ≠ '\x7d') → kl ≠ ql →
    (kl ++ ['\x7d']).isPrefixOf (ql ++ '\x7d' :: rest) = false := by
  intro kl
  induction kl with
  | nil =>
    intro ql rest _ hq hne
    cases ql with
    | nil => exact absurd rfl hne
    | cons b ql2 =>
      have hb : b ≠ '\x7d' := hq b (List.mem_cons_self b ql2)
      simp only [List.nil_append, List.cons_append, List.isPrefixOf]
      have : ('\x7d' == b) = false := by
        simp [Ne.symm hb]
      simp [this]
  | cons a kl2 ih =>
    intro ql rest hk hq hne
    cases ql with
    | nil =>
      have ha : a ≠ '\x7d' := hk a (List.mem_cons_self a kl2)
      simp only [List.cons_append, List.nil_append, List.isPrefixOf]
      have : (a == '\x7d') = false := by simp [ha]
      simp [this]
    | cons b ql2 =>
      simp only [List.cons_append, List.isPrefixOf]
      by_cases hab : a = b
      · subst hab
        have hne2 : kl2 ≠ ql2 := by
          intro h2
          exact hne (by rw [h2])
        simp only [List.append_eq]
        rw [ih ql2 rest
          (fun c hc => hk c (List.mem_cons_of_mem a hc))
          (fun c hc => hq c (List.mem_cons_of_mem a hc)) hne2]
        simp
      · have : (a == b) = false := by simp [hab]
        simp [this]

theorem replaceAllGo_nil_subject (pat rep : List Char) (hpat : pat.head? = some '\x7b') :
    ∀ fuel pre, replaceAllGo pat rep fuel pre [] = [] := by
  intro fuel pre
  cases fuel with
  | zero => rfl
  | succ f =>
    rw [replaceAllGo.eq_def]
    dsimp only
    cases pat with
    | nil => simp at hpat
    | cons a p2 =>
      have hpf : (a :: p2).isPrefixOf ([] : List Char) = false := rfl
      rw [hpf]
      simp

theorem placeholder_toList (k : String) :
    (placeholder k).toList = '\x7b' :: (k.toList ++ ['\x7d']) := by
  cases k
  rfl

theorem ph_toList (q : String) :
    (renderTok (.ph q)).toList = '\x7b' :: (q.toList ++ ['\x7d']) := by
  cases q
  rfl

theorem braceFree_chars (s : String) (h : braceFree s = true) :
    ∀ c ∈ s.toList, c ≠ '\x7b' ∧ c ≠ '\x7d' := by
  intro c hc
  have := (List.all_eq_true.mp h) c hc
  simp only [Bool.and_eq_true, bne_iff_ne, ne_eq] at this
  exact this

theorem string_toList_inj (a b : String) (h : a.toList = b.toList) : a = b := by
  cases a
  cases b
  exact congrArg String.mk h

theorem go_toks (k : String) (rep : List Char)
    (hk : regexLiteralKey k = true)
    (hrepD : ∀ c ∈ rep, c ≠ '$') :
    ∀ (toks : List Tok) (pre : List Char) (fuel : Nat),
      wellFormedToks toks = true →
      (tokChars toks).length < fuel →
      replaceAllGo ('\x7b' :: (k.toList ++ ['\x7d'])) rep fuel pre (tokChars toks) =
        tokChars (toks.map (replacePh k ⟨rep⟩)) := by
  intro toks
  induction toks with
  | nil =>
    intro pre fuel _ _
    exact replaceAllGo_nil_subject ('\x7b' :: (k.toList ++ ['\x7d'])) rep rfl fuel pre
  | cons t ts ih =>
    intro pre fuel hwf hfuel
    cases t with
    | lit s =>
      have hwf2 : wellFormedToks ts = true := by
        simp only [wellFormedToks, List.all_cons, Bool.and_eq_true] at hwf
        exact hwf.2
      have hbf : braceFree s = true := by
        simp only [wellFormedToks, List.all_cons, Bool.and_eq_true] at hwf
        exact hwf.1
      have hch : ∀ c ∈ s.toList, c ≠ '\x7b' :=
        fun c hc => (braceFree_chars s hbf c hc).1
      have hcc : tokChars (Tok.lit s :: ts) = s.toList ++ tokChars ts := rfl
      rw [hcc] at hfuel ⊢
      rw [List.length_append] at hfuel
      rw [go_skip_lit ('\x7b' :: (k.toList ++ ['\x7d'])) rep rfl s.toList
        (tokChars ts) pre fuel hch (by omega)]
      rw [ih (pre ++ s.toList) (fuel - s.toList.length) hwf2 (by omega)]
      rfl
    | ph q =>
      have hwf2 : wellFormedToks ts = true := by
        simp only [wellFormedToks, List.all_cons, Bool.and_eq_true] at hwf
        exact hwf.2
      have hq : regexLiteralKey q = true := by
        simp only [wellFormedToks, List.all_cons, Bool.and_eq_true] at hwf
        exact hwf.1
      have hcc : tokChars (Tok.ph q :: ts) =
          '\x7b' :: (q.toList ++ '\x7d' :: tokChars ts) := by
        show (renderTok (.ph q)).toList ++ tokChars ts = _
        rw [ph_toList]
        simp
      rw [hcc] at hfuel ⊢
      simp only [List.length_cons, List.length_append] at hfuel
      cases fuel with
      | zero => omega
      | succ f =>
        by_cases hqk : q = k
        · subst hqk
          rw [replaceAllGo.eq_def]
          dsimp only
          have hsubj : '\x7b' :: (q.toList ++ '\x7d' :: tokChars ts) =
              ('\x7b' :: (q.toList ++ ['\x7d'])) ++ tokChars ts := by
            simp
          have hpf : ('\x7b' :: (q.toList ++ ['\x7d'])).isPrefixOf
              ('\x7b' :: (q.toList ++ '\x7d' :: tokChars ts)) = true := by
            rw [hsubj]
            exact List.isPrefixOf_iff_prefix.mpr (List.prefix_append _ _)
          rw [hpf]
          simp only [if_true]
          rw [hsubj, List.drop_left]
          rw [replExpand_of_dollarFree _ _ _ rep hrepD]
          rw [ih (pre ++ ('\x7b' :: (q.toList ++ ['\x7d']))) f hwf2 (by omega)]
          have hmap : replacePh q ⟨rep⟩ (Tok.ph q) = Tok.lit ⟨rep⟩ := by
            simp [replacePh]
          show _ = tokChars ((replacePh q ⟨rep⟩ (Tok.ph q)) :: ts.map (replacePh q ⟨rep⟩))
          rw [hmap]
          rfl
        · rw [replaceAllGo.eq_def]
          dsimp only
          have hpf : ('\x7b' :: (k.toList ++ ['\x7d'])).isPrefixOf
              ('\x7b' :: (q.toList ++ '\x7d' :: tokChars ts)) = false := by
            show (('\x7b' == '\x7b') &&
              (k.toList ++ ['\x7d']).isPrefixOf (q.toList ++ '\x7d' :: tokChars ts)) = false
            rw [key_mismatch k.toList q.toList (tokChars ts)
              (fun c hc => (regexLiteralKey_chars k hk c hc).2.1)
              (fun c hc => (regexLiteralKey_chars q hq c hc).2.1)
              (fun h => hqk (string_toList_inj q k h.symm))]
            simp
          rw [hpf]
          simp only [Bool.false_eq_true, if_false]
          have hstep : q.toList ++ '\x7d' :: tokChars ts =
              (q.toList ++ ['\x7d']) ++ tokChars ts := by
            simp
          rw [hstep]
          rw [go_skip_lit ('\x7b' :: (k.toList ++ ['\x7d'])) rep rfl
            (q.toList ++ ['\x7d']) (tokChars ts)
            (pre ++ ['\x7b']) f
            (by
              intro c hc
              rcases List.mem_append.mp hc with h1 | h1
              · exact (regexLiteralKey_chars q hq c h1).1
              · simp at h1
                subst h1
                decide)
            (by simp only [List.length_append, List.length_cons, List.length_nil]; omega)]
          rw [ih ((pre ++ ['\x7b']) ++ (q.toList ++ ['\x7d']))
            (f - (q.toList ++ ['\x7d']).length) hwf2
            (by simp only [List.length_append, List.length_cons, List.length_nil]; omega)]
          have hmap : replacePh k ⟨rep⟩ (Tok.ph q) = Tok.ph q := by
            simp only [replacePh]
            have : (q == k) = false := by simp [hqk]
            rw [this]
            simp
          show _ = tokChars ((replacePh k ⟨rep⟩ (Tok.ph q)) :: ts.map (replacePh k ⟨rep⟩))
          rw [hmap]
          show _ = (renderTok (.ph q)).toList ++ tokChars (ts.map (replacePh k ⟨rep⟩))
          rw [ph_toList]
          simp

theorem placeholder_not_empty (k : String) : (placeholder k).isEmpty = false := by
  cases hk : (placeholder k).isEmpty
  · rfl
  · exfalso
    have h2 : placeholder k = "" := (String.isEmpty_iff (placeholder k)).mp hk
    have h3 := congrArg String.toList h2
    rw [placeholder_toList] at h3
    simp at h3

theorem jsReplaceAll_toks (k : String) (rep : String) (toks : List Tok)
    (hk : regexLiteralKey k = true)
    (hrep : dollarFree rep = true)
    (hwf : wellFormedToks toks = true) :
    jsReplaceAll (renderToks toks) (placeholder k) rep =
      renderToks (toks.map (replacePh k rep)) := by
  rw [jsReplaceAll, placeholder_not_empty]
  simp only [Bool.false_eq_true, if_false]
  have hrepD : ∀ c ∈ rep.toList, c ≠ '$' := by
    intro c hc
    have := (List.all_eq_true.mp hrep) c hc
    simpa using this
  have hgo := go_toks k rep.toList hk hrepD toks []
    ((renderToks toks).toList.length + 1) hwf
    (by rw [renderToks_eq_tokChars]; omega)
  rw [renderToks_eq_tokChars, ← placeholder_toList] at hgo
  apply string_toList_inj
  show replaceAllGo (placeholder k).toList rep.toList
      ((renderToks toks).toList.length + 1) [] (renderToks toks).toList =
    (renderToks (toks.map (replacePh k rep))).toList
  rw [renderToks_eq_tokChars, renderToks_eq_tokChars, hgo]
  have hr : (⟨rep.toList⟩ : String) = rep := by cases rep; rfl
  rw [hr]

theorem wellFormedToks_replacePh (k : String) (rep : String)
    (hrep : braceFree rep = true) (toks : List Tok)
    (h : wellFormedToks toks = true) :
    wellFormedToks (toks.map (replacePh k rep)) = true := by
  induction toks with
  | nil => rfl
  | cons t ts ih =>
    simp only [wellFormedToks, List.all_cons, Bool.and_eq_true, List.map_cons] at h ⊢
    refine ⟨?_, ih h.2⟩
    cases t with
    | lit s => exact h.1
    | ph q =>
      simp only [replacePh]
      by_cases hq : q = k
      · subst hq
        simp only [beq_self_eq_true, if_true]
        exact hrep
      · have : (q == k) = false := by simp [hq]
        rw [this]
        simp only [Bool.false_eq_true, if_false]
        exact h.1

theorem formatPlainTemplate_applyAll (lib : JsLib) :
    ∀ (parsed : Obj) (toks : List Tok),
    (∀ kv ∈ parsed, regexLiteralKey kv.1 = true) →
    (∀ kv ∈ parsed, jsNullish kv.2 = false →
      braceFree (lib.toStr kv.2) = true ∧ dollarFree (lib.toStr kv.2) = true) →
    wellFormedToks toks = true →
    formatPlainTemplate lib parsed (renderToks toks) =
      .ok (renderToks (applyAll lib parsed toks)) := by
  intro parsed
  induction parsed with
  | nil =>
    intro toks _ _ _
    rfl
  | cons kv ps ih =>
    intro toks hkeys hvals hwf
    obtain ⟨k, v⟩ := kv
    simp only [formatPlainTemplate, List.foldlM_cons, applyAll, List.foldl_cons]
    by_cases hn : jsNullish v = true
    · simp only [plainTemplateStep, hn, if_true]
      have := ih toks (fun x hx => hkeys x (List.mem_cons_of_mem _ hx))
        (fun x hx => hvals x (List.mem_cons_of_mem _ hx)) hwf
      simp only [formatPlainTemplate, applyAll] at this
      simpa [Bind.bind, Except.bind] using this
    · have hn2 : jsNullish v = false := by
        cases h2 : jsNullish v
        · rfl
        · exact absurd h2 hn
      have hk : regexLiteralKey k = true :=
        hkeys (k, v) (List.mem_cons_self _ _)
      have hv := hvals (k, v) (List.mem_cons_self _ _) hn2
      simp only [plainTemplateStep, hn2, Bool.false_eq_true, if_false, hk, if_true]
      rw [jsReplaceAll_toks k (lib.toStr v) toks hk hv.2 hwf]
      have := ih (toks.map (replacePh k (lib.toStr v)))
        (fun x hx => hkeys x (List.mem_cons_of_mem _ hx))
        (fun x hx => hvals x (List.mem_cons_of_mem _ hx))
        (wellFormedToks_replacePh k (lib.toStr v) hv.1 toks hwf)
      simp only [formatPlainTemplate, applyAll] at this
      simpa [Bind.bind, Except.bind] using this

theorem substTok_nil (lib : JsLib) (t : Tok) : substTok lib [] t = t := by
  cases t <;> rfl

theorem applyAll_substTok (lib : JsLib) :
    ∀ (parsed : Obj) (toks : List Tok),
    (parsed.map Prod.fst).Nodup →
    applyAll lib parsed toks = toks.map (substTok lib parsed) := by
  intro parsed
  induction parsed with
  | nil =>
    intro toks _
    show toks = _
    rw [show toks.map (substTok lib []) = toks.map id from
      List.map_congr_left (fun t _ => substTok_nil lib t)]
    rw [List.map_id]
  | cons kv ps ih =>
    intro toks hnd
    obtain ⟨k, v⟩ := kv
    have hknotin : k ∉ ps.map Prod.fst := by
      simp only [List.map_cons, List.nodup_cons] at hnd
      exact hnd.1
    have hnd2 : (ps.map Prod.fst).Nodup := by
      simp only [List.map_cons, List.nodup_cons] at hnd
      exact hnd.2
    simp only [applyAll, List.foldl_cons]
    by_cases hn : jsNullish v = true
    · rw [if_pos hn]
      have := ih toks hnd2
      simp only [applyAll] at this
      rw [this]
      apply List.map_congr_left
      intro t _
      cases t with
      | lit s => rfl
      | ph q =>
        simp only [substTok]
        by_cases hq : q = k
        · subst hq
          have hf : ps.find? (fun kv => kv.1 == q) = none := by
            rw [List.find?_eq_none]
            intro x hx
            simp only [beq_iff_eq]
            intro hxk
            exact hknotin (hxk ▸ List.mem_map_of_mem Prod.fst hx)
          rw [hf]
          have hc : List.find? (fun kv => kv.1 == q) ((q, v) :: ps) = some (q, v) := by
            rw [List.find?_cons_of_pos]
            simp
          rw [hc]
          simp [hn]
        · have hq2 : ((k, v).1 == q) = false := by simp [Ne.symm hq]
          rw [List.find?_cons_of_neg]
          simp [hq2]
    · have hn2 : jsNullish v = false := by
        cases h2 : jsNullish v
        · rfl
        · exact absurd h2 hn
      rw [hn2]
      simp only [Bool.false_eq_true, if_false]
      have := ih (toks.map (replacePh k (lib.toStr v))) hnd2
      simp only [applyAll] at this
      rw [this, List.map_map]
      apply List.map_congr_left
      intro t _
      simp only [Function.comp_apply]
      cases t with
      | lit s => rfl
      | ph q =>
        by_cases hq : q = k
        · subst hq
          simp only [replacePh, beq_self_eq_true, if_true]
          simp only [substTok]
          have hc : List.find? (fun kv => kv.1 == q) ((q, v) :: ps) = some (q, v) := by
            rw [List.find?_cons_of_pos]
            simp
          rw [hc]
          simp [hn2]
        · have hqk : (q == k) = false := by simp [hq]
          simp only [replacePh, hqk, Bool.false_eq_true, if_false]
          simp only [substTok]
          have hc : List.find? (fun kv => kv.1 == q) ((k, v) :: ps) =
              List.find? (fun kv => kv.1 == q) ps := by
            rw [List.find?_cons_of_neg]
            simp [Ne.symm hq]
          rw [hc]

/-- C9: in plain template rendering, with regex-literal distinct field
names and stringified values free of braces and replacement-pattern
dollars, the per-field replacement loop acts as a simultaneous
substitution on the template's token structure: every placeholder of a
non-nullish field becomes the field's stringified value at every
occurrence, and a placeholder whose field is nullish or absent is left
verbatim (still rendered as the brace-delimited placeholder, never as an
empty string or a null text).  The dollar-freedom side condition is
necessary: see the counterexample. -/
theorem C9_placeholder_substitution (lib : JsLib) (parsed : Obj) (toks : List Tok)
    (hkeys : ∀ kv ∈ parsed, regexLiteralKey kv.1 = true)
    (hvals : ∀ kv ∈ parsed, jsNullish kv.2 = false →
      braceFree (lib.toStr kv.2) = true ∧ dollarFree (lib.toStr kv.2) = true)
    (hnodup : (parsed.map Prod.fst).Nodup)
    (hwf : wellFormedToks toks = true) :
    formatPlainTemplate lib parsed (renderToks toks) =
      .ok (renderToks (toks.map (substTok lib parsed))) := by
  rw [formatPlainTemplate_applyAll lib parsed toks hkeys hvals hwf,
    applyAll_substTok lib parsed toks hnodup]

/-- C9 counterexample: the field `a` is non-nullish and stringifies to
the replacement-pattern text dollar-ampersand, yet the rendered output
still contains the verbatim placeholder and nowhere the stringified
value: `String.replace` expands dollar patterns in the replacement, so
the occurrence is replaced by the matched placeholder itself rather than
by the field's stringified value, refuting the unconditional claim. -/
theorem C9_counterexample :
    formatPlainTemplate witC9Lib [("a", .vStr "$&")] "t \x7ba\x7d" =
      .ok "t \x7ba\x7d" ∧
    jsNullish (.vStr "$&") = false ∧
    witC9Lib.toStr (.vStr "$&") = "$&" ∧
    strContains "t \x7ba\x7d" "$&" = false :=
  ⟨rfl, rfl, rfl, by decide⟩

/-- Witness for C9: a two-field record with one nullish field, rendered
through the loop: the non-null placeholder is substituted, the null one
is left verbatim. -/
theorem C9_witness :
    ((witC9Parsed.map Prod.fst).Nodup ∧ wellFormedToks witC9Toks = true) ∧
    formatPlainTemplate witC9Lib witC9Parsed (renderToks witC9Toks) =
      .ok (renderToks (witC9Toks.map (substTok witC9Lib witC9Parsed))) ∧
    renderToks witC9Toks =
      "VM \x7bservice_name\x7d now \x7bcurrent_machine_type\x7d" ∧
    renderToks (witC9Toks.map (substTok witC9Lib witC9Parsed)) =
      "VM drb now \x7bcurrent_machine_type\x7d" :=
  ⟨⟨by decide, by decide⟩,
   C9_placeholder_substitution witC9Lib witC9Parsed witC9Toks (by decide)
     (by decide) (by decide) (by decide),
   rfl, rfl⟩

/-! ## Claim C10 -/

theorem collect_fold_ok (lib : JsLib) (mcp : McpEnv) (policy : Value)
    (parsed : Obj) :
    ∀ (templates : List Value) (acc : List ActionOption),
    (∀ at_ ∈ templates, ∃ o, renderActionOption lib mcp policy parsed at_ = .ok o) →
    List.foldlM (fun acc at_ => do
      match ← renderActionOption lib mcp policy parsed at_ with
      | some opt => pure (acc ++ [opt])
      | none => pure acc) acc templates =
      .ok (acc ++ templates.filterMap (renderedOption lib mcp policy parsed)) := by
  intro templates
  induction templates with
  | nil =>
    intro acc _
    simp [Pure.pure, Except.pure]
  | cons t ts ih =>
    intro acc hok
    obtain ⟨o, ho⟩ := hok t (List.mem_cons_self t ts)
    cases o with
    | none =>
      have ih2 := ih acc (fun x hx => hok x (List.mem_cons_of_mem t hx))
      rw [List.foldlM_cons]
      simp only [ho, Bind.bind, Except.bind, Pure.pure, Except.pure] at ih2 ⊢
      rw [ih2]
      have hro : renderedOption lib mcp policy parsed t = none := by
        simp [renderedOption, ho]
      rw [List.filterMap_cons, hro]
    | some opt =>
      have ih2 := ih (acc ++ [opt]) (fun x hx => hok x (List.mem_cons_of_mem t hx))
      rw [List.foldlM_cons]
      simp only [ho, Bind.bind, Except.bind, Pure.pure, Except.pure] at ih2 ⊢
      rw [ih2]
      have hro : renderedOption lib mcp policy parsed t = some opt := by
        simp [renderedOption, ho]
      rw [List.filterMap_cons, hro]
      simp

theorem collectActionOptions_ok (lib : JsLib) (mcp : McpEnv) (policy : Value)
    (parsed : Obj) (templates : List Value)
    (hok : ∀ at_ ∈ templates, ∃ o, renderActionOption lib mcp policy parsed at_ = .ok o) :
    collectActionOptions lib mcp policy parsed templates =
      .ok (templates.filterMap (renderedOption lib mcp policy parsed)) := by
  have := collect_fold_ok lib mcp policy parsed templates [] hok
  simpa [collectActionOptions] using this

/-- C10 (amended): with an action-templates array whose per-template
renderings all succeed (tool-level failures are caught into error-text
options, so only type errors abort) and no summary template, the report
is returned, and its option list is exactly the list of per-template
renderings: each entry is a function of its own template alone, so one
option's tool failure never blocks the others. -/
theorem C10_report_per_option_independence (lib : JsLib) (mcp : McpEnv)
    (parsed : Obj) (decision policy : Value) (templates : List Value)
    (hat : getF policy "action_templates" = .vArr templates)
    (hok : ∀ at_ ∈ templates, ∃ o, renderActionOption lib mcp policy parsed at_ = .ok o)
    (hsum : jsTruthy (getF policy "summary_template") = false) :
    formatReport lib mcp parsed decision policy =
      .ok (let actionList := templates.filterMap (renderedOption lib mcp policy parsed)
           let actionOptionsV := if actionList.length > 0
             then Value.vStr (joinActionOptions lib actionList) else Value.vNull
           let firstAction := match actionList.head? with
             | some o => Value.vStr o.action
             | none => Value.vUndef
           let actionV := jsOr2 actionOptionsV (jsOr2 firstAction .vNull)
           ⟨parsed, decision, actionV,
            (if actionList.length > 0 then some actionList else none),
            (if actionList.length > 0 then Value.vNull
             else jsOr2 actionOptionsV (jsOr2 actionV (.vStr "Approval required"))),
            policy, false, .vNull⟩) := by
  have hco := collectActionOptions_ok lib mcp policy parsed templates hok
  simp only [formatReport, hat, hco, Bind.bind, Except.bind, hsum,
    Bool.and_false, Bool.false_eq_true, if_false, Pure.pure, Except.pure]

/-- C10 counterexample: when the scaling-schedule script read fails, the
report is still returned and the failing option's action is the error
text, but that text is NOT one of the transport layer's recognized error
shapes: isActionValid accepts it, so the approve affordance is not
suppressed, refuting the recognizability part of the claim. -/
theorem C10_counterexample :
    (formatReport witC10Lib witC10McpBad witC10ParsedS .vNull witC10PolicyS).map
        (fun r => (r.actionOptions.getD []).map (fun o => o.action)) =
      .ok ["Error preparing scaling schedule script: ENOENT"] ∧
    isActionValid witC10Lib
      (.vStr "Error preparing scaling schedule script: ENOENT") = true :=
  ⟨rfl, by decide⟩

/-- Witness for C10: a two-template policy where the first template's
tool throws and the second renders normally: the report is returned, the
failing option carries the recognized error text, the other option is
unaffected. -/
theorem C10_witness :
    formatReport witC10Lib witC10Mcp witC10Parsed .vNull witC10Policy =
      .ok witC10Report ∧
    witC10Report.actionOptions = some witC10Options ∧
    witC10Options.map (fun o => o.action) =
      ["Error generating autoscaler diff: boom", "Scale drb"] ∧
    isActionValid witC10Lib (.vStr "Error generating autoscaler diff: boom") = false :=
  ⟨C10_report_per_option_independence witC10Lib witC10Mcp witC10Parsed .vNull
      witC10Policy [witC10T1, witC10T2] rfl
      (by
        intro at_ h
        simp only [List.mem_cons, List.not_mem_nil, or_false] at h
        rcases h with h | h <;> subst h <;> exact ⟨_, rfl⟩)
      (by decide),
   rfl, rfl, by decide⟩

end Autoheal
